import Mathlib

/-!
Shallow embedding of the event ingestion core of the Stacks blockchain API:
the event-stream HTTP server and its message handlers (event-server.ts) and
the API mode selection of the entry point (index.ts). Functions that live in
repository modules outside the provided sources (event-stream/reader.ts,
bns/bns-helpers.ts, datastore/common.ts, helpers.ts, and the native decoding
library) are parameters of the embedding, so every theorem holds for every
choice of those functions unless noted otherwise.
-/

/-- Chain identifier forwarded from the stacks transactions library. -/
abbrev ChainID := Nat

/-- Asset event sub-kind stored on stx/ft/nft events. -/
inductive DbAssetEventTypeId where
  | Transfer
  | Mint
  | Burn
  deriving Repr, DecidableEq

/-- Event type tag written on each stored event record. -/
inductive DbEventTypeId where
  | SmartContractLog
  | StxLock
  | StxAsset
  | FungibleTokenAsset
  | NonFungibleTokenAsset
  deriving Repr, DecidableEq

/-- Tagged payload of a core node event; mirrors the discriminated union on
    CoreNodeEventType of core-node-message.ts. Raw clarity values and buffers
    are kept as their hex strings. -/
inductive CoreNodeEventPayload where
  | contractEvent (contract_identifier : String) (topic : String) (raw_value : String)
  | stxLockEvent (locked_amount : Nat) (unlock_height : Nat) (locked_address : String)
  | stxTransferEvent (sender : String) (recipient : String) (amount : Nat)
  | stxMintEvent (recipient : String) (amount : Nat)
  | stxBurnEvent (sender : String) (amount : Nat)
  | ftTransferEvent (asset_identifier : String) (sender : String) (recipient : String) (amount : Nat)
  | ftMintEvent (asset_identifier : String) (recipient : String) (amount : Nat)
  | ftBurnEvent (asset_identifier : String) (sender : String) (amount : Nat)
  | nftTransferEvent (asset_identifier : String) (sender : String) (recipient : String) (raw_value : String)
  | nftMintEvent (asset_identifier : String) (recipient : String) (raw_value : String)
  | nftBurnEvent (asset_identifier : String) (sender : String) (raw_value : String)
  deriving Repr, DecidableEq

/-- One event emitted by the node inside a block or microblock message; the
    event index is block-relative. -/
structure CoreNodeEvent where
  txid : String
  committed : Bool
  event_index : Nat
  payload : CoreNodeEventPayload
  deriving Repr, DecidableEq

/-- Common base of every stored event record (event-server.ts lines 375-381). -/
structure DbEventBase where
  event_index : Nat
  tx_id : String
  tx_index : Nat
  block_height : Int
  canonical : Bool
  deriving Repr, DecidableEq

/-- Stored contract-log event. -/
structure DbSmartContractEvent extends DbEventBase where
  event_type : DbEventTypeId
  contract_identifier : String
  topic : String
  value : String
  deriving Repr, DecidableEq

/-- Stored stx-lock event. -/
structure DbStxLockEvent extends DbEventBase where
  event_type : DbEventTypeId
  locked_amount : Nat
  unlock_height : Nat
  locked_address : String
  deriving Repr, DecidableEq

/-- Stored stx asset event; mint carries no sender and burn no recipient. -/
structure DbStxEvent extends DbEventBase where
  event_type : DbEventTypeId
  asset_event_type_id : DbAssetEventTypeId
  sender : Option String
  recipient : Option String
  amount : Nat
  deriving Repr, DecidableEq

/-- Stored fungible-token asset event. -/
structure DbFtEvent extends DbEventBase where
  event_type : DbEventTypeId
  asset_event_type_id : DbAssetEventTypeId
  sender : Option String
  recipient : Option String
  asset_identifier : String
  amount : Nat
  deriving Repr, DecidableEq

/-- Stored non-fungible-token asset event. -/
structure DbNftEvent extends DbEventBase where
  event_type : DbEventTypeId
  asset_event_type_id : DbAssetEventTypeId
  sender : Option String
  recipient : Option String
  asset_identifier : String
  value : String
  deriving Repr, DecidableEq

/-- Transaction payload variants of the decoded binary transaction
    (TxPayloadTypeID of the native decoding library). Only the variants the
    event server inspects carry fields. -/
inductive TxPayload where
  | tokenTransfer
  | smartContract (contract_name : String) (code_body : String)
  | contractCall
  | poisonMicroblock
  | coinbase
  | versionedSmartContract (contract_name : String) (code_body : String)
  deriving Repr, DecidableEq

/-- The decoded transaction value produced by the binary transaction decoder. -/
structure DecodedTxResult where
  payload : TxPayload
  deriving Repr, DecidableEq

/-- The core-node transaction entry attached to a parsed message; only the
    fields the event server reads are modelled. -/
structure CoreTx where
  txid : String
  tx_index : Nat
  contract_abi : String
  status : String
  raw_result : String
  deriving Repr, DecidableEq

/-- A block or microblock transaction after parsing by
    parseMessageTransaction (event-stream/reader.ts, outside the provided
    sources). -/
structure CoreNodeParsedTxMessage where
  core_tx : CoreTx
  parsed_tx : DecodedTxResult
  sender_address : String
  sponsor_address : Option String
  microblock_hash : String
  deriving Repr, DecidableEq

/-- Modelled from the spec: the transaction record produced by
    createDbTxFromCoreMsg (datastore/common.ts, outside the provided
    sources). Only the fields the event server reads back are modelled, and
    the builder itself is a parameter of ReaderDeps. -/
structure DbTx where
  tx_id : String
  tx_index : Nat
  event_count : Nat
  deriving Repr, DecidableEq

/-- Stored smart contract record (event-server.ts lines 341-348). -/
structure DbSmartContract where
  tx_id : String
  contract_id : String
  block_height : Int
  source_code : String
  abi : String
  canonical : Bool
  deriving Repr, DecidableEq

/-- Modelled from the spec: BNS name record produced by the name-system
    extractor (bns/bns-helpers.ts, outside the provided sources); its
    contents are opaque to the event server. -/
structure DbBnsName where
  name : String
  tx_id : String
  deriving Repr, DecidableEq

/-- Modelled from the spec: BNS namespace record produced by the name-system
    extractor, likewise opaque to the event server. -/
structure DbBnsNamespace where
  namespace_id : String
  tx_id : String
  deriving Repr, DecidableEq

/-- Per-transaction slice of an update bundle: the transaction record, the
    five per-kind event buckets, and the derived contract and name records. -/
structure DataStoreTxEventData where
  tx : DbTx
  stxEvents : List DbStxEvent
  stxLockEvents : List DbStxLockEvent
  ftEvents : List DbFtEvent
  nftEvents : List DbNftEvent
  contractLogEvents : List DbSmartContractEvent
  smartContracts : List DbSmartContract
  names : List DbBnsName
  namespaces : List DbBnsNamespace
  deriving Repr, DecidableEq

/-- Block summary argument of parseDataStoreTxEventData (lines 320-323). -/
structure ParseBlockData where
  block_height : Int
  index_block_hash : String
  deriving Repr, DecidableEq

/-- Block data handed to parseMessageTransaction; the anchor-only fields are
    optional because the microblock handler leaves them out. -/
structure CoreNodeMsgBlockData where
  block_hash : String
  index_block_hash : String
  parent_index_block_hash : String
  parent_block_hash : String
  parent_microblock : Option String
  parent_microblock_sequence : Option Nat
  block_height : Int
  burn_block_time : Int
  burn_block_height : Int
  burn_block_hash : Option String
  parent_burn_block_timestamp : Int
  parent_burn_block_height : Int
  parent_burn_block_hash : String
  miner_txid : Option String
  deriving Repr, DecidableEq

/-- One raw transaction entry of a block or microblock message. -/
structure CoreNodeBlockTx where
  txid : String
  raw_tx : String
  status : String
  raw_result : String
  microblock_hash : Option String
  microblock_sequence : Option Nat
  microblock_parent_hash : Option String
  deriving Repr, DecidableEq

/-- One matured miner reward entry of a block message. -/
structure CoreNodeMinerReward where
  from_stacks_block_hash : String
  from_index_consensus_hash : String
  recipient : String
  coinbase_amount : Nat
  tx_fees_anchored : Nat
  tx_fees_streamed_confirmed : Nat
  tx_fees_streamed_produced : Nat
  deriving Repr, DecidableEq

/-- The body of a new_block message. -/
structure CoreNodeBlockMessage where
  block_hash : String
  index_block_hash : String
  parent_index_block_hash : String
  parent_block_hash : String
  parent_microblock : String
  parent_microblock_sequence : Nat
  block_height : Int
  burn_block_time : Int
  burn_block_hash : String
  burn_block_height : Int
  miner_txid : String
  parent_burn_block_timestamp : Int
  parent_burn_block_height : Int
  parent_burn_block_hash : String
  matured_miner_rewards : List CoreNodeMinerReward
  transactions : List CoreNodeBlockTx
  events : List CoreNodeEvent
  deriving Repr, DecidableEq

/-- The body of a new_microblocks message. -/
structure CoreNodeMicroblockMessage where
  parent_index_block_hash : String
  burn_block_hash : String
  burn_block_height : Int
  burn_block_timestamp : Int
  transactions : List CoreNodeBlockTx
  events : List CoreNodeEvent
  deriving Repr, DecidableEq

/-- One reward recipient entry of a new_burn_block message. -/
structure CoreNodeBurnRewardRecipient where
  recipient : String
  amt : Nat
  deriving Repr, DecidableEq

/-- The body of a new_burn_block message. -/
structure CoreNodeBurnBlockMessage where
  burn_block_hash : String
  burn_block_height : Int
  burn_amount : Nat
  reward_recipients : List CoreNodeBurnRewardRecipient
  reward_slot_holders : List String
  deriving Repr, DecidableEq

/-- The body of a drop_mempool_tx message. -/
structure CoreNodeDropMempoolTxMessage where
  dropped_txids : List String
  reason : String
  deriving Repr, DecidableEq

/-- One entry of an attachments/new message. -/
structure CoreNodeAttachmentMessage where
  attachment_index : Nat
  index_block_hash : String
  block_height : String
  content_hash : String
  contract_id : String
  metadata : String
  tx_id : String
  content : String
  deriving Repr, DecidableEq

/-- Stored anchor block record (event-server.ts lines 235-253). -/
structure DbBlock where
  canonical : Bool
  block_hash : String
  index_block_hash : String
  parent_index_block_hash : String
  parent_block_hash : String
  parent_microblock_hash : String
  parent_microblock_sequence : Nat
  block_height : Int
  burn_block_time : Int
  burn_block_hash : String
  burn_block_height : Int
  miner_txid : String
  execution_cost_read_count : Nat
  execution_cost_read_length : Nat
  execution_cost_runtime : Nat
  execution_cost_write_count : Nat
  execution_cost_write_length : Nat
  deriving Repr, DecidableEq

/-- Stored matured miner reward record (event-server.ts lines 259-270). -/
structure DbMinerReward where
  canonical : Bool
  block_hash : String
  index_block_hash : String
  from_index_block_hash : String
  mature_block_height : Int
  recipient : String
  coinbase_amount : Nat
  tx_fees_anchored : Nat
  tx_fees_streamed_confirmed : Nat
  tx_fees_streamed_produced : Nat
  deriving Repr, DecidableEq

/-- Modelled from the spec: unconfirmed microblock record produced by
    parseMicroblocksFromTxs (event-stream/reader.ts, outside the provided
    sources); the anchor fields and the canonical flags are absent until the
    confirming anchor block arrives. -/
structure DbMicroblockPartial where
  microblock_hash : String
  microblock_sequence : Nat
  microblock_parent_hash : String
  parent_index_block_hash : String
  parent_burn_block_height : Int
  parent_burn_block_hash : String
  parent_burn_block_time : Int
  deriving Repr, DecidableEq

/-- Confirmed microblock record as completed by the anchor block handler
    (event-server.ts lines 284-296). -/
structure DbMicroblock extends DbMicroblockPartial where
  canonical : Bool
  microblock_canonical : Bool
  block_height : Int
  parent_block_height : Int
  parent_block_hash : String
  index_block_hash : String
  block_hash : String
  deriving Repr, DecidableEq

/-- Stored burnchain reward record (event-server.ts lines 88-96). -/
structure DbBurnchainReward where
  canonical : Bool
  burn_block_hash : String
  burn_block_height : Int
  burn_amount : Nat
  reward_recipient : String
  reward_amount : Nat
  reward_index : Nat
  deriving Repr, DecidableEq

/-- Stored reward slot holder record (event-server.ts lines 100-106). -/
structure DbRewardSlotHolder where
  canonical : Bool
  burn_block_hash : String
  burn_block_height : Int
  address : String
  slot_index : Nat
  deriving Repr, DecidableEq

/-- Modelled from the spec: mempool transaction record built by
    createDbMempoolTxFromCoreMsg (datastore/common.ts, outside the provided
    sources); the builder is a parameter. -/
structure DbMempoolTx where
  tx_id : String
  receipt_date : Int
  deriving Repr, DecidableEq

/-- A mempool transaction after hex decode and binary decode, with sender and
    sponsor derived from the authorization fields (all outside the provided
    sources). -/
structure DecodedMempoolTx where
  tx_id : String
  sender : String
  sponsor_address : Option String
  raw_tx : String
  deriving Repr, DecidableEq

/-- Decoded attachment metadata tuple with fields op, name and namespace. -/
structure AttachmentMetadata where
  op : String
  name : String
  namespace_name : String
  deriving Repr, DecidableEq

/-- Attachment record committed by the attachment handler. -/
structure DataStoreAttachmentData where
  op : String
  zonefile : String
  name : String
  namespace_name : String
  zonefileHash : String
  txId : String
  indexBlockHash : String
  blockHeight : Int
  deriving Repr, DecidableEq

/-- Parent burn block summary passed to parseMicroblocksFromTxs. -/
structure ParentBurnBlock where
  height : Int
  hash : String
  time : Int
  deriving Repr, DecidableEq

/-- Argument record of parseMicroblocksFromTxs. -/
structure ParseMicroblocksArgs where
  parentIndexBlockHash : String
  txs : List CoreNodeBlockTx
  parentBurnBlock : ParentBurnBlock
  deriving Repr, DecidableEq

/-- External collaborators of the message handlers that live in repository
    modules outside the provided sources. The embedding is parameterized over
    them: the theorems below hold for every choice of these functions. -/
structure ReaderDeps where
  parseMessageTransaction : ChainID → CoreNodeBlockTx → CoreNodeMsgBlockData → List CoreNodeEvent → Except String (Option CoreNodeParsedTxMessage)
  parseMicroblocksFromTxs : ParseMicroblocksArgs → List DbMicroblockPartial
  createDbTxFromCoreMsg : CoreNodeParsedTxMessage → DbTx
  parseNameFromContractEvent : CoreNodeEvent → CoreNodeParsedTxMessage → List CoreNodeEvent → Int → ChainID → Option DbBnsName
  parseNamespaceFromContractEvent : CoreNodeEvent → CoreNodeParsedTxMessage → Int → Option DbBnsNamespace
  parseNameRenewalWithNoZonefileHashFromContractCall : CoreNodeParsedTxMessage → ChainID → Option DbBnsName

/-- Per-transaction shell created by the opening map of
    parseDataStoreTxEventData (event-server.ts lines 326-363): empty event
    buckets plus the payload-directed smart-contract or BNS-renewal records. -/
def initTxEventData (deps : ReaderDeps) (blockData : ParseBlockData) (chainId : ChainID)
    (tx : CoreNodeParsedTxMessage) : DataStoreTxEventData :=
  let dbTx : DataStoreTxEventData :=
    { tx := deps.createDbTxFromCoreMsg tx
      stxEvents := []
      stxLockEvents := []
      ftEvents := []
      nftEvents := []
      contractLogEvents := []
      smartContracts := []
      names := []
      namespaces := [] }
  match tx.parsed_tx.payload with
  | TxPayload.smartContract contract_name code_body =>
      { dbTx with smartContracts :=
          [{ tx_id := tx.core_tx.txid
             contract_id := tx.sender_address ++ "." ++ contract_name
             block_height := blockData.block_height
             source_code := code_body
             abi := tx.core_tx.contract_abi
             canonical := true }] }
  | TxPayload.contractCall =>
      match deps.parseNameRenewalWithNoZonefileHashFromContractCall tx chainId with
      | some name => { dbTx with names := [name] }
      | none => dbTx
  | _ => dbTx

/-- Appends an extracted BNS name to the name set of the owning transaction
    when the extractor found one (event-server.ts lines 405-407). -/
def appendBnsName (o : Option DbBnsName) (d : DataStoreTxEventData) : DataStoreTxEventData :=
  match o with
  | some name => { d with names := d.names ++ [name] }
  | none => d

/-- Appends an extracted BNS namespace likewise (lines 409-411). -/
def appendBnsNamespace (o : Option DbBnsNamespace) (d : DataStoreTxEventData) :
    DataStoreTxEventData :=
  match o with
  | some ns => { d with namespaces := d.namespaces ++ [ns] }
  | none => d

/-- Builds the typed event record with canonical set and appends it to the
    owning bucket: the switch of event-server.ts lines 383-536. The contract
    event case additionally runs the BNS extractor and can fail when the
    parsed transaction list has no owner (lines 394-397). -/
def applyEventToTx (deps : ReaderDeps) (parsedTxs : List CoreNodeParsedTxMessage)
    (events : List CoreNodeEvent) (blockData : ParseBlockData) (chainId : ChainID)
    (event : CoreNodeEvent) (d : DataStoreTxEventData) : Except String DataStoreTxEventData :=
  let dbEvent : DbEventBase :=
    { event_index := event.event_index
      tx_id := event.txid
      tx_index := d.tx.tx_index
      block_height := blockData.block_height
      canonical := true }
  match event.payload with
  | CoreNodeEventPayload.contractEvent contract_identifier topic raw_value =>
    let entry : DbSmartContractEvent :=
      { toDbEventBase := dbEvent
        event_type := DbEventTypeId.SmartContractLog
        contract_identifier := contract_identifier
        topic := topic
        value := raw_value }
    match parsedTxs.find? (fun ptx => ptx.core_tx.txid == event.txid) with
    | none => Except.error ("Unexpected missing tx during BNS parsing by tx_id " ++ event.txid)
    | some parsedTx =>
      let d1 := { d with contractLogEvents := d.contractLogEvents ++ [entry] }
      let d2 := appendBnsName
        (deps.parseNameFromContractEvent event parsedTx events blockData.block_height chainId) d1
      let d3 := appendBnsNamespace
        (deps.parseNamespaceFromContractEvent event parsedTx blockData.block_height) d2
      Except.ok d3
  | CoreNodeEventPayload.stxLockEvent locked_amount unlock_height locked_address =>
    Except.ok { d with stxLockEvents := d.stxLockEvents ++
      [{ toDbEventBase := dbEvent
         event_type := DbEventTypeId.StxLock
         locked_amount := locked_amount
         unlock_height := unlock_height
         locked_address := locked_address }] }
  | CoreNodeEventPayload.stxTransferEvent sender recipient amount =>
    Except.ok { d with stxEvents := d.stxEvents ++
      [{ toDbEventBase := dbEvent
         event_type := DbEventTypeId.StxAsset
         asset_event_type_id := DbAssetEventTypeId.Transfer
         sender := some sender
         recipient := some recipient
         amount := amount }] }
  | CoreNodeEventPayload.stxMintEvent recipient amount =>
    Except.ok { d with stxEvents := d.stxEvents ++
      [{ toDbEventBase := dbEvent
         event_type := DbEventTypeId.StxAsset
         asset_event_type_id := DbAssetEventTypeId.Mint
         sender := none
         recipient := some recipient
         amount := amount }] }
  | CoreNodeEventPayload.stxBurnEvent sender amount =>
    Except.ok { d with stxEvents := d.stxEvents ++
      [{ toDbEventBase := dbEvent
         event_type := DbEventTypeId.StxAsset
         asset_event_type_id := DbAssetEventTypeId.Burn
         sender := some sender
         recipient := none
         amount := amount }] }
  | CoreNodeEventPayload.ftTransferEvent asset_identifier sender recipient amount =>
    Except.ok { d with ftEvents := d.ftEvents ++
      [{ toDbEventBase := dbEvent
         event_type := DbEventTypeId.FungibleTokenAsset
         asset_event_type_id := DbAssetEventTypeId.Transfer
         sender := some sender
         recipient := some recipient
         asset_identifier := asset_identifier
         amount := amount }] }
  | CoreNodeEventPayload.ftMintEvent asset_identifier recipient amount =>
    Except.ok { d with ftEvents := d.ftEvents ++
      [{ toDbEventBase := dbEvent
         event_type := DbEventTypeId.FungibleTokenAsset
         asset_event_type_id := DbAssetEventTypeId.Mint
         sender := none
         recipient := some recipient
         asset_identifier := asset_identifier
         amount := amount }] }
  | CoreNodeEventPayload.ftBurnEvent asset_identifier sender amount =>
    Except.ok { d with ftEvents := d.ftEvents ++
      [{ toDbEventBase := dbEvent
         event_type := DbEventTypeId.FungibleTokenAsset
         asset_event_type_id := DbAssetEventTypeId.Burn
         sender := some sender
         recipient := none
         asset_identifier := asset_identifier
         amount := amount }] }
  | CoreNodeEventPayload.nftTransferEvent asset_identifier sender recipient raw_value =>
    Except.ok { d with nftEvents := d.nftEvents ++
      [{ toDbEventBase := dbEvent
         event_type := DbEventTypeId.NonFungibleTokenAsset
         asset_event_type_id := DbAssetEventTypeId.Transfer
         sender := some sender
         recipient := some recipient
         asset_identifier := asset_identifier
         value := raw_value }] }
  | CoreNodeEventPayload.nftMintEvent asset_identifier recipient raw_value =>
    Except.ok { d with nftEvents := d.nftEvents ++
      [{ toDbEventBase := dbEvent
         event_type := DbEventTypeId.NonFungibleTokenAsset
         asset_event_type_id := DbAssetEventTypeId.Mint
         sender := none
         recipient := some recipient
         asset_identifier := asset_identifier
         value := raw_value }] }
  | CoreNodeEventPayload.nftBurnEvent asset_identifier sender raw_value =>
    Except.ok { d with nftEvents := d.nftEvents ++
      [{ toDbEventBase := dbEvent
         event_type := DbEventTypeId.NonFungibleTokenAsset
         asset_event_type_id := DbAssetEventTypeId.Burn
         sender := some sender
         recipient := none
         asset_identifier := asset_identifier
         value := raw_value }] }

/-- Updates the first bundle entry whose transaction id matches the event,
    modelling the dbData.find lookup of event-server.ts line 370; an absent
    owner transaction is the fatal error of line 372. -/
def pushEventToTx (mk : DataStoreTxEventData → Except String DataStoreTxEventData)
    (txid : String) : List DataStoreTxEventData → Except String (List DataStoreTxEventData)
  | [] => Except.error ("Unexpected missing tx during event parsing by tx_id " ++ txid)
  | d :: rest =>
    if d.tx.tx_id == txid then (mk d).map (fun d2 => d2 :: rest)
    else (pushEventToTx mk txid rest).map (fun r => d :: r)

/-- One step of the event scatter loop (event-server.ts lines 365-537):
    uncommitted events are skipped, committed events are routed to the owning
    transaction entry. -/
def applyEvent (deps : ReaderDeps) (parsedTxs : List CoreNodeParsedTxMessage)
    (events : List CoreNodeEvent) (blockData : ParseBlockData) (chainId : ChainID)
    (dbData : List DataStoreTxEventData) (event : CoreNodeEvent) :
    Except String (List DataStoreTxEventData) :=
  if event.committed = false then Except.ok dbData
  else pushEventToTx (applyEventToTx deps parsedTxs events blockData chainId event)
    event.txid dbData

/-- The transaction-shell map followed by the event scatter loop of
    parseDataStoreTxEventData, before normalization. -/
def scatterEvents (deps : ReaderDeps) (parsedTxs : List CoreNodeParsedTxMessage)
    (events : List CoreNodeEvent) (blockData : ParseBlockData) (chainId : ChainID) :
    Except String (List DataStoreTxEventData) :=
  events.foldlM (applyEvent deps parsedTxs events blockData chainId)
    (parsedTxs.map (initTxEventData deps blockData chainId))

/-- Tags the event indexes of one bucket with the bucket id and the position
    of each event inside the bucket. The tag pair stands for the object
    identity of the mutable event records of the TypeScript implementation. -/
def tagIdxFrom (b : Nat) : Nat → List Nat → List (Nat × Nat × Nat)
  | _, [] => []
  | p, ix :: rest => (b, p, ix) :: tagIdxFrom b (p + 1) rest

/-- Concatenates the tagged buckets, numbering the buckets consecutively. -/
def tagBlocks : Nat → List (List Nat) → List (Nat × Nat × Nat)
  | _, [] => []
  | b, l :: ls => tagIdxFrom b 0 l ++ tagBlocks (b + 1) ls

/-- Event index lists of the five buckets, in the flatten order of
    event-server.ts lines 541-548. -/
def txEventIndexLists (d : DataStoreTxEventData) : List (List Nat) :=
  [d.contractLogEvents.map (fun e => e.event_index),
   d.ftEvents.map (fun e => e.event_index),
   d.nftEvents.map (fun e => e.event_index),
   d.stxEvents.map (fun e => e.event_index),
   d.stxLockEvents.map (fun e => e.event_index)]

/-- The merged event sequence of one transaction, as tagged triples of bucket
    id, position inside the bucket, and event index. -/
def bucketIndexTriples (d : DataStoreTxEventData) : List (Nat × Nat × Nat) :=
  tagBlocks 0 (txEventIndexLists d)

/-- Comparator of the merged-bucket sort (event-server.ts line 549). -/
def eventIdxLe (a b : Nat × Nat × Nat) : Prop := a.2.2 ≤ b.2.2

instance : DecidableRel eventIdxLe := fun a b => Nat.decLe a.2.2 b.2.2

instance : IsTotal (Nat × Nat × Nat) eventIdxLe := ⟨fun a b => Nat.le_total a.2.2 b.2.2⟩

instance : IsTrans (Nat × Nat × Nat) eventIdxLe := ⟨fun _ _ _ => Nat.le_trans⟩

/-- Rewrites the event index of each bucket entry in position order through
    the supplied assignment, modelling the write-back loop of event-server.ts
    lines 551-553. -/
def renumberFrom {α : Type} (upd : α → Nat → α) (g : Nat → Nat) : Nat → List α → List α
  | _, [] => []
  | p, e :: rest => upd e (g p) :: renumberFrom upd g (p + 1) rest

/-- Per-transaction event index normalization (event-server.ts lines
    539-554): merge the five buckets, stable-sort by the block-relative event
    index, assign the position in the sorted sequence as the new event index
    of every event, and set the event count of the transaction. The stable
    insertion sort matches the stable JavaScript array sort with the
    event-index comparator. -/
def normalizeTxEvents (d : DataStoreTxEventData) : DataStoreTxEventData :=
  let sortedEvents := List.insertionSort eventIdxLe (bucketIndexTriples d)
  let g : Nat → Nat → Nat := fun b p =>
    sortedEvents.findIdx (fun t => t.1 == b && t.2.1 == p)
  { d with
    tx := { d.tx with event_count := sortedEvents.length }
    contractLogEvents :=
      renumberFrom (fun e i => { e with event_index := i }) (g 0) 0 d.contractLogEvents
    ftEvents := renumberFrom (fun e i => { e with event_index := i }) (g 1) 0 d.ftEvents
    nftEvents := renumberFrom (fun e i => { e with event_index := i }) (g 2) 0 d.nftEvents
    stxEvents := renumberFrom (fun e i => { e with event_index := i }) (g 3) 0 d.stxEvents
    stxLockEvents :=
      renumberFrom (fun e i => { e with event_index := i }) (g 4) 0 d.stxLockEvents }

/-- parseDataStoreTxEventData (event-server.ts lines 317-557): build the
    per-transaction shells, scatter the committed events, then normalize the
    event indexes of every transaction. -/
def parseDataStoreTxEventData (deps : ReaderDeps) (parsedTxs : List CoreNodeParsedTxMessage)
    (events : List CoreNodeEvent) (blockData : ParseBlockData) (chainId : ChainID) :
    Except String (List DataStoreTxEventData) :=
  (scatterEvents deps parsedTxs events blockData chainId).map
    (fun dbData => dbData.map normalizeTxEvents)

/-- Argument of the updateBurnchainRewards store call. -/
structure BurnchainRewardsUpdate where
  burnchainBlockHash : String
  burnchainBlockHeight : Int
  rewards : List DbBurnchainReward
  deriving Repr, DecidableEq

/-- Argument of the updateBurnchainRewardSlotHolders store call. -/
structure RewardSlotHoldersUpdate where
  burnchainBlockHash : String
  burnchainBlockHeight : Int
  slotHolders : List DbRewardSlotHolder
  deriving Repr, DecidableEq

/-- The burnchain reward records of one burn block message, indexed by
    position (event-server.ts lines 87-98). -/
def burnRewardsFromMsg (burnBlockMsg : CoreNodeBurnBlockMessage) : List DbBurnchainReward :=
  burnBlockMsg.reward_recipients.enum.map (fun ri =>
    { canonical := true
      burn_block_hash := burnBlockMsg.burn_block_hash
      burn_block_height := burnBlockMsg.burn_block_height
      burn_amount := burnBlockMsg.burn_amount
      reward_recipient := ri.2.recipient
      reward_amount := ri.2.amt
      reward_index := ri.1 })

/-- The slot holder records of one burn block message, indexed by position
    (event-server.ts lines 99-108). -/
def slotHoldersFromMsg (burnBlockMsg : CoreNodeBurnBlockMessage) : List DbRewardSlotHolder :=
  burnBlockMsg.reward_slot_holders.enum.map (fun ri =>
    { canonical := true
      burn_block_hash := burnBlockMsg.burn_block_hash
      burn_block_height := burnBlockMsg.burn_block_height
      address := ri.2
      slot_index := ri.1 })

/-- handleBurnBlockMessage (event-server.ts lines 80-119): one burnchain
    reward per recipient entry and one slot holder per address, both indexed
    by position, delivered as the two store update arguments. -/
def handleBurnBlockMessage (burnBlockMsg : CoreNodeBurnBlockMessage) :
    BurnchainRewardsUpdate × RewardSlotHoldersUpdate :=
  ({ burnchainBlockHash := burnBlockMsg.burn_block_hash
     burnchainBlockHeight := burnBlockMsg.burn_block_height
     rewards := burnRewardsFromMsg burnBlockMsg },
   { burnchainBlockHash := burnBlockMsg.burn_block_hash
     burnchainBlockHeight := burnBlockMsg.burn_block_height
     slotHolders := slotHoldersFromMsg burnBlockMsg })

/-- The spread building the parseMessageTransaction block data argument in
    handleBlockMessage (event-server.ts lines 225-227). -/
def blockDataFromMsg (msg : CoreNodeBlockMessage) : CoreNodeMsgBlockData :=
  { block_hash := msg.block_hash
    index_block_hash := msg.index_block_hash
    parent_index_block_hash := msg.parent_index_block_hash
    parent_block_hash := msg.parent_block_hash
    parent_microblock := some msg.parent_microblock
    parent_microblock_sequence := some msg.parent_microblock_sequence
    block_height := msg.block_height
    burn_block_time := msg.burn_block_time
    burn_block_height := msg.burn_block_height
    burn_block_hash := some msg.burn_block_hash
    parent_burn_block_timestamp := msg.parent_burn_block_timestamp
    parent_burn_block_height := msg.parent_burn_block_height
    parent_burn_block_hash := msg.parent_burn_block_hash
    miner_txid := some msg.miner_txid }

/-- The per-transaction block data built by handleMicroblockMessage
    (event-server.ts lines 179-195), with sentinel values for the fields only
    known once the confirming anchor block arrives. -/
def microblockTxBlockData (msg : CoreNodeMicroblockMessage) : CoreNodeMsgBlockData :=
  { parent_index_block_hash := msg.parent_index_block_hash
    parent_burn_block_timestamp := msg.burn_block_timestamp
    parent_burn_block_height := msg.burn_block_height
    parent_burn_block_hash := msg.burn_block_hash
    burn_block_time := -1
    burn_block_height := -1
    index_block_hash := ""
    block_hash := ""
    block_height := -1
    parent_block_hash := ""
    parent_microblock := none
    parent_microblock_sequence := none
    burn_block_hash := none
    miner_txid := none }

/-- The forEach loop collecting successfully parsed transactions of a block
    or microblock message; a decode failure inside parseMessageTransaction
    aborts the whole message, a null result is skipped. -/
def collectParsedTxs (deps : ReaderDeps) (chainId : ChainID) (blockData : CoreNodeMsgBlockData)
    (events : List CoreNodeEvent) :
    List CoreNodeBlockTx → Except String (List CoreNodeParsedTxMessage)
  | [] => Except.ok []
  | tx :: rest => do
    let parsedTx ← deps.parseMessageTransaction chainId tx blockData events
    let restParsed ← collectParsedTxs deps chainId blockData events rest
    match parsedTx with
    | some p => Except.ok (p :: restParsed)
    | none => Except.ok restParsed

/-- Argument of the atomic store update of the anchor block handler. -/
structure DataStoreBlockUpdateData where
  block : DbBlock
  microblocks : List DbMicroblock
  minerRewards : List DbMinerReward
  txs : List DataStoreTxEventData
  deriving Repr, DecidableEq

/-- Argument of the atomic store update of the microblock handler. -/
structure DataStoreMicroblockUpdateData where
  microblocks : List DbMicroblockPartial
  txs : List DataStoreTxEventData
  deriving Repr, DecidableEq

/-- The anchor block record built by handleBlockMessage with all execution
    cost fields hardcoded to zero (event-server.ts lines 235-253). -/
def dbBlockFromMsg (msg : CoreNodeBlockMessage) : DbBlock :=
  { canonical := true
    block_hash := msg.block_hash
    index_block_hash := msg.index_block_hash
    parent_index_block_hash := msg.parent_index_block_hash
    parent_block_hash := msg.parent_block_hash
    parent_microblock_hash := msg.parent_microblock
    parent_microblock_sequence := msg.parent_microblock_sequence
    block_height := msg.block_height
    burn_block_time := msg.burn_block_time
    burn_block_hash := msg.burn_block_hash
    burn_block_height := msg.burn_block_height
    miner_txid := msg.miner_txid
    execution_cost_read_count := 0
    execution_cost_read_length := 0
    execution_cost_runtime := 0
    execution_cost_write_count := 0
    execution_cost_write_length := 0 }

/-- The matured miner reward records built by handleBlockMessage
    (event-server.ts lines 257-272). -/
def dbMinerRewardsFromMsg (msg : CoreNodeBlockMessage) : List DbMinerReward :=
  msg.matured_miner_rewards.map (fun minerReward =>
    { canonical := true
      block_hash := minerReward.from_stacks_block_hash
      index_block_hash := msg.index_block_hash
      from_index_block_hash := minerReward.from_index_consensus_hash
      mature_block_height := msg.block_height
      recipient := minerReward.recipient
      coinbase_amount := minerReward.coinbase_amount
      tx_fees_anchored := minerReward.tx_fees_anchored
      tx_fees_streamed_confirmed := minerReward.tx_fees_streamed_confirmed
      tx_fees_streamed_produced := minerReward.tx_fees_streamed_produced })

/-- The confirmed microblock records built by handleBlockMessage from the
    reconstructed microblocks (event-server.ts lines 276-296). -/
def dbMicroblocksFromMsg (deps : ReaderDeps) (msg : CoreNodeBlockMessage) : List DbMicroblock :=
  (deps.parseMicroblocksFromTxs
    { parentIndexBlockHash := msg.parent_index_block_hash
      txs := msg.transactions
      parentBurnBlock :=
        { height := msg.parent_burn_block_height
          hash := msg.parent_burn_block_hash
          time := msg.parent_burn_block_timestamp } }).map (fun mb =>
    { toDbMicroblockPartial := mb
      canonical := true
      microblock_canonical := true
      block_height := msg.block_height
      parent_block_height := msg.block_height - 1
      parent_block_hash := msg.parent_block_hash
      index_block_hash := msg.index_block_hash
      block_hash := msg.block_hash })

/-- handleBlockMessage (event-server.ts lines 219-315): decode every
    transaction, build the block record with zero execution costs, collect
    miner rewards, complete the reconstructed microblocks, run event
    extraction, and produce the single atomic update bundle. -/
def handleBlockMessage (deps : ReaderDeps) (chainId : ChainID) (msg : CoreNodeBlockMessage) :
    Except String DataStoreBlockUpdateData := do
  let parsedTxs ← collectParsedTxs deps chainId (blockDataFromMsg msg) msg.events msg.transactions
  let txs ← parseDataStoreTxEventData deps parsedTxs msg.events
    { block_height := msg.block_height, index_block_hash := msg.index_block_hash } chainId
  Except.ok
    { block := dbBlockFromMsg msg
      microblocks := dbMicroblocksFromMsg deps msg
      minerRewards := dbMinerRewardsFromMsg msg
      txs := txs }

/-- handleMicroblockMessage (event-server.ts lines 162-217): reconstruct the
    unconfirmed microblocks, decode every transaction against the sentinel
    block data, run event extraction with the sentinel block height, and
    produce the single atomic update bundle. -/
def handleMicroblockMessage (deps : ReaderDeps) (chainId : ChainID)
    (msg : CoreNodeMicroblockMessage) : Except String DataStoreMicroblockUpdateData := do
  let dbMicroblocks := deps.parseMicroblocksFromTxs
    { parentIndexBlockHash := msg.parent_index_block_hash
      txs := msg.transactions
      parentBurnBlock :=
        { height := msg.burn_block_height
          hash := msg.burn_block_hash
          time := msg.burn_block_timestamp } }
  let parsedTxs ← collectParsedTxs deps chainId (microblockTxBlockData msg) msg.events
    msg.transactions
  let txs ← parseDataStoreTxEventData deps parsedTxs msg.events
    { block_height := -1, index_block_hash := "" } chainId
  Except.ok { microblocks := dbMicroblocks, txs := txs }

/-- Execution mode of the API process (index.ts lines 30-48). -/
inductive StacksApiMode where
  | default
  | readOnly
  | writeOnly
  | offline
  deriving Repr, DecidableEq

/-- getApiMode (index.ts lines 54-73). The process environment is modelled as
    a partial map from variable names to strings and parseArgBoolean
    (helpers.ts, outside the provided sources) is a parameter. -/
def getApiMode (parseArgBoolean : Option String → Bool) (env : String → Option String) :
    StacksApiMode :=
  match env "STACKS_API_MODE" with
  | some "readonly" => StacksApiMode.readOnly
  | some "writeonly" => StacksApiMode.writeOnly
  | some "offline" => StacksApiMode.offline
  | _ =>
    if parseArgBoolean (env "STACKS_READ_ONLY_MODE") then StacksApiMode.readOnly
    else if parseArgBoolean (env "STACKS_API_OFFLINE_MODE") then StacksApiMode.offline
    else StacksApiMode.default

/-- Argument of the dropMempoolTxs store call. -/
structure DropMempoolTxsUpdate where
  status : String
  txIds : List String
  deriving Repr, DecidableEq

/-- External collaborators of the HTTP event server: the reader dependencies,
    the JSON serializer, the raw-event store disposition, the unchecked JSON
    body casts of each route, and the decoding helpers of the mempool and
    attachment handlers (all outside the provided sources). -/
structure ServerDeps (β : Type) where
  reader : ReaderDeps
  jsonStringify : β → String
  storeRawEventRequestResult : String → String → Except String Unit
  asBlockMessage : β → CoreNodeBlockMessage
  asBurnBlockMessage : β → CoreNodeBurnBlockMessage
  asMicroblockMessage : β → CoreNodeMicroblockMessage
  asMempoolTxsMessage : β → List String
  asDropMempoolTxMessage : β → CoreNodeDropMempoolTxMessage
  asAttachmentsMessage : β → List CoreNodeAttachmentMessage
  decodeRawTx : String → Except String DecodedMempoolTx
  createDbMempoolTxFromCoreMsg : DecodedMempoolTx → Int → DbMempoolTx
  getTxDbStatus : String → String
  decodeAttachmentMetadata : String → Except String AttachmentMetadata
  parseInt10 : String → Int
  bnsContractIdMainnet : String
  bnsContractIdTestnet : String
  now : Int

/-- handleMempoolTxsMessage (event-server.ts lines 121-151): hex decode and
    binary decode every raw transaction, failing the whole message on a
    malformed entry, then build the mempool records with the local receipt
    date. -/
def handleMempoolTxsMessage {β : Type} (deps : ServerDeps β) (rawTxs : List String) :
    Except String (List DbMempoolTx) := do
  let decodedTxs ← rawTxs.mapM deps.decodeRawTx
  Except.ok (decodedTxs.map (fun tx => deps.createDbMempoolTxFromCoreMsg tx deps.now))

/-- handleDroppedMempoolTxsMessage (event-server.ts lines 153-160): translate
    the drop reason to the status taxonomy and forward the transaction ids. -/
def handleDroppedMempoolTxsMessage {β : Type} (deps : ServerDeps β)
    (msg : CoreNodeDropMempoolTxMessage) : DropMempoolTxsUpdate :=
  { status := deps.getTxDbStatus msg.reason, txIds := msg.dropped_txids }

/-- handleNewAttachmentMessage (event-server.ts lines 559-587): keep the
    attachments of the two BNS contracts, decode their metadata tuple
    (failing the message on malformed metadata), and strip the 0x prefix of
    the zonefile content. -/
def handleNewAttachmentMessage {β : Type} (deps : ServerDeps β)
    (msg : List CoreNodeAttachmentMessage) : Except String (List DataStoreAttachmentData) :=
  msg.foldlM (fun acc m =>
    if m.contract_id == deps.bnsContractIdMainnet || m.contract_id == deps.bnsContractIdTestnet
    then do
      let metadata ← deps.decodeAttachmentMetadata m.metadata
      Except.ok (acc ++ [{ op := metadata.op
                           zonefile := m.content.drop 2
                           name := metadata.name
                           namespace_name := metadata.namespace_name
                           zonefileHash := m.content_hash
                           txId := m.tx_id
                           indexBlockHash := m.index_block_hash
                           blockHeight := deps.parseInt10 m.block_height }])
    else Except.ok acc) []

/-- A call made against the data store, in issue order. -/
inductive StoreOp where
  | storeRawEventRequest (path : String) (payload : String)
  | update (d : DataStoreBlockUpdateData)
  | updateMicroblocks (d : DataStoreMicroblockUpdateData)
  | updateBurnchainRewards (u : BurnchainRewardsUpdate)
  | updateBurnchainRewardSlotHolders (u : RewardSlotHoldersUpdate)
  | updateMempoolTxs (txs : List DbMempoolTx)
  | dropMempoolTxs (u : DropMempoolTxsUpdate)
  | updateAttachments (l : List DataStoreAttachmentData)
  deriving Repr, DecidableEq

/-- Modelled from the spec: the express dispatch of one POST request through
    the middleware chain registered by startEventServer (event-server.ts
    lines 728-833). The wildcard middleware persisting the raw event record
    is registered before every typed route and must complete first; a failed
    raw append aborts the request with status 500 before any typed handler
    runs, a failed typed handler answers 500 after its error is caught, and
    an unknown path answers 404. The result is the list of store calls made,
    in order, together with the HTTP status. -/
def processPost {β : Type} (deps : ServerDeps β) (chainId : ChainID)
    (path : String) (body : β) : List StoreOp × Nat :=
  let payload := deps.jsonStringify body
  match deps.storeRawEventRequestResult path payload with
  | Except.error _ => ([], 500)
  | Except.ok _ =>
    let rawOp := StoreOp.storeRawEventRequest path payload
    if path == "/new_block" then
      match handleBlockMessage deps.reader chainId (deps.asBlockMessage body) with
      | Except.ok bundle => ([rawOp, StoreOp.update bundle], 200)
      | Except.error _ => ([rawOp], 500)
    else if path == "/new_burn_block" then
      let u := handleBurnBlockMessage (deps.asBurnBlockMessage body)
      ([rawOp, StoreOp.updateBurnchainRewards u.1,
        StoreOp.updateBurnchainRewardSlotHolders u.2], 200)
    else if path == "/new_mempool_tx" then
      match handleMempoolTxsMessage deps (deps.asMempoolTxsMessage body) with
      | Except.ok txs => ([rawOp, StoreOp.updateMempoolTxs txs], 200)
      | Except.error _ => ([rawOp], 500)
    else if path == "/drop_mempool_tx" then
      ([rawOp, StoreOp.dropMempoolTxs
        (handleDroppedMempoolTxsMessage deps (deps.asDropMempoolTxMessage body))], 200)
    else if path == "/attachments/new" then
      match handleNewAttachmentMessage deps (deps.asAttachmentsMessage body) with
      | Except.ok l => ([rawOp, StoreOp.updateAttachments l], 200)
      | Except.error _ => ([rawOp], 500)
    else if path == "/new_microblocks" then
      match handleMicroblockMessage deps.reader chainId (deps.asMicroblockMessage body) with
      | Except.ok u => ([rawOp, StoreOp.updateMicroblocks u], 200)
      | Except.error _ => ([rawOp], 500)
    else ([rawOp], 404)

/-! Basic facts about the Except monad used throughout the proofs. -/

/-- Bind on a successful Except value reduces to the continuation. -/
theorem except_bind_ok {ε α β : Type} (a : α) (f : α → Except ε β) :
    ((Except.ok a : Except ε α) >>= f) = f a := rfl

/-- Bind on a failed Except value keeps the error. -/
theorem except_bind_error {ε α β : Type} (e : ε) (f : α → Except ε β) :
    ((Except.error e : Except ε α) >>= f) = Except.error e := rfl

/-- Mapping twice over an Except composes the functions. -/
theorem except_map_map {ε α β γ : Type} (f : β → γ) (g : α → β) (e : Except ε α) :
    (e.map g).map f = e.map (fun x => f (g x)) := by cases e <;> rfl

/-! Inversion lemmas for the block and microblock handlers. -/

/-- Successful runs of handleBlockMessage decompose into a successful
    transaction decode pass and a successful event extraction pass. -/
theorem handleBlockMessage_ok {deps : ReaderDeps} {chainId : ChainID}
    {msg : CoreNodeBlockMessage} {out : DataStoreBlockUpdateData}
    (h : handleBlockMessage deps chainId msg = Except.ok out) :
    ∃ parsedTxs txs,
      collectParsedTxs deps chainId (blockDataFromMsg msg) msg.events msg.transactions =
        Except.ok parsedTxs ∧
      parseDataStoreTxEventData deps parsedTxs msg.events
        { block_height := msg.block_height, index_block_hash := msg.index_block_hash } chainId =
        Except.ok txs ∧
      out = { block := dbBlockFromMsg msg
              microblocks := dbMicroblocksFromMsg deps msg
              minerRewards := dbMinerRewardsFromMsg msg
              txs := txs } := by
  unfold handleBlockMessage at h
  cases hc : collectParsedTxs deps chainId (blockDataFromMsg msg) msg.events msg.transactions with
  | error e => rw [hc, except_bind_error] at h; cases h
  | ok parsedTxs =>
    rw [hc, except_bind_ok] at h
    cases hp : parseDataStoreTxEventData deps parsedTxs msg.events
        { block_height := msg.block_height, index_block_hash := msg.index_block_hash } chainId with
    | error e => rw [hp, except_bind_error] at h; cases h
    | ok txs =>
      rw [hp, except_bind_ok] at h
      cases h
      exact ⟨parsedTxs, txs, rfl, hp, rfl⟩

/-- Successful runs of handleMicroblockMessage decompose analogously, with
    the sentinel parse block data. -/
theorem handleMicroblockMessage_ok {deps : ReaderDeps} {chainId : ChainID}
    {msg : CoreNodeMicroblockMessage} {out : DataStoreMicroblockUpdateData}
    (h : handleMicroblockMessage deps chainId msg = Except.ok out) :
    ∃ parsedTxs txs,
      collectParsedTxs deps chainId (microblockTxBlockData msg) msg.events msg.transactions =
        Except.ok parsedTxs ∧
      parseDataStoreTxEventData deps parsedTxs msg.events
        { block_height := -1, index_block_hash := "" } chainId = Except.ok txs ∧
      out = { microblocks := deps.parseMicroblocksFromTxs
                { parentIndexBlockHash := msg.parent_index_block_hash
                  txs := msg.transactions
                  parentBurnBlock :=
                    { height := msg.burn_block_height
                      hash := msg.burn_block_hash
                      time := msg.burn_block_timestamp } }
              txs := txs } := by
  unfold handleMicroblockMessage at h
  cases hc : collectParsedTxs deps chainId (microblockTxBlockData msg) msg.events
      msg.transactions with
  | error e => rw [hc, except_bind_error] at h; cases h
  | ok parsedTxs =>
    rw [hc, except_bind_ok] at h
    cases hp : parseDataStoreTxEventData deps parsedTxs msg.events
        { block_height := -1, index_block_hash := "" } chainId with
    | error e => rw [hp, except_bind_error] at h; cases h
    | ok txs =>
      rw [hp, except_bind_ok] at h
      cases h
      exact ⟨parsedTxs, txs, rfl, hp, rfl⟩

/-- A transaction of the message whose decode fails makes the collection pass
    fail as a whole. -/
theorem collectParsedTxs_error_of_mem (deps : ReaderDeps) (chainId : ChainID)
    (blockData : CoreNodeMsgBlockData) (events : List CoreNodeEvent)
    (txs : List CoreNodeBlockTx) (tx : CoreNodeBlockTx) (e : String)
    (htx : tx ∈ txs)
    (hfail : deps.parseMessageTransaction chainId tx blockData events = Except.error e) :
    ∃ msg, collectParsedTxs deps chainId blockData events txs = Except.error msg := by
  induction txs with
  | nil => cases htx
  | cons hd tl ih =>
    cases htx with
    | head => exact ⟨e, by simp [collectParsedTxs, hfail, except_bind_error]⟩
    | tail _ hmem =>
      cases hhd : deps.parseMessageTransaction chainId hd blockData events with
      | error e2 => exact ⟨e2, by simp [collectParsedTxs, hhd, except_bind_error]⟩
      | ok o =>
        obtain ⟨m, hm⟩ := ih hmem
        exact ⟨m, by simp [collectParsedTxs, hhd, except_bind_ok, hm, except_bind_error]⟩

/-- C7: for every new_microblocks message, the per-transaction block data that
    handleMicroblockMessage passes to parseMessageTransaction carries the
    sentinel values for the anchor-only fields: burn_block_time = -1,
    index_block_hash = "", block_hash = "", block_height = -1 and
    parent_block_hash = "". -/
theorem microblock_handler_sentinel_block_data (msg : CoreNodeMicroblockMessage) :
    (microblockTxBlockData msg).burn_block_time = -1 ∧
    (microblockTxBlockData msg).index_block_hash = "" ∧
    (microblockTxBlockData msg).block_hash = "" ∧
    (microblockTxBlockData msg).block_height = -1 ∧
    (microblockTxBlockData msg).parent_block_hash = "" :=
  ⟨rfl, rfl, rfl, rfl, rfl⟩

/-- C10: the block record committed by the anchor block handler has all five
    execution cost fields equal to zero, whatever the message contents. -/
theorem block_handler_execution_costs_zero (deps : ReaderDeps) (chainId : ChainID)
    (msg : CoreNodeBlockMessage) (out : DataStoreBlockUpdateData)
    (h : handleBlockMessage deps chainId msg = Except.ok out) :
    out.block.execution_cost_read_count = 0 ∧
    out.block.execution_cost_read_length = 0 ∧
    out.block.execution_cost_runtime = 0 ∧
    out.block.execution_cost_write_count = 0 ∧
    out.block.execution_cost_write_length = 0 := by
  obtain ⟨parsedTxs, txs, _, _, hout⟩ := handleBlockMessage_ok h
  subst hout
  exact ⟨rfl, rfl, rfl, rfl, rfl⟩

/-- C2: a transaction whose raw bytes fail to decode aborts the whole anchor
    block or microblock message with an error; no update bundle containing
    any of the other transactions of the message is produced. -/
theorem decode_failure_aborts_message :
    (∀ (deps : ReaderDeps) (chainId : ChainID) (msg : CoreNodeBlockMessage)
        (tx : CoreNodeBlockTx) (e : String), tx ∈ msg.transactions →
      deps.parseMessageTransaction chainId tx (blockDataFromMsg msg) msg.events =
        Except.error e →
      ∃ e2, handleBlockMessage deps chainId msg = Except.error e2) ∧
    (∀ (deps : ReaderDeps) (chainId : ChainID) (msg : CoreNodeMicroblockMessage)
        (tx : CoreNodeBlockTx) (e : String), tx ∈ msg.transactions →
      deps.parseMessageTransaction chainId tx (microblockTxBlockData msg) msg.events =
        Except.error e →
      ∃ e2, handleMicroblockMessage deps chainId msg = Except.error e2) := by
  constructor
  · intro deps chainId msg tx e htx hfail
    obtain ⟨m, hm⟩ := collectParsedTxs_error_of_mem deps chainId (blockDataFromMsg msg)
      msg.events msg.transactions tx e htx hfail
    exact ⟨m, by unfold handleBlockMessage; rw [hm, except_bind_error]⟩
  · intro deps chainId msg tx e htx hfail
    obtain ⟨m, hm⟩ := collectParsedTxs_error_of_mem deps chainId (microblockTxBlockData msg)
      msg.events msg.transactions tx e htx hfail
    exact ⟨m, by unfold handleMicroblockMessage; rw [hm, except_bind_error]⟩

/-- C9: getApiMode returns the mode named by STACKS_API_MODE when it is one of
    readonly, writeonly or offline, and otherwise falls back to the legacy
    boolean flags STACKS_READ_ONLY_MODE then STACKS_API_OFFLINE_MODE, and
    finally to the default mode. -/
theorem get_api_mode_spec (parseArgBoolean : Option String → Bool)
    (env : String → Option String) :
    (env "STACKS_API_MODE" = some "readonly" →
      getApiMode parseArgBoolean env = StacksApiMode.readOnly) ∧
    (env "STACKS_API_MODE" = some "writeonly" →
      getApiMode parseArgBoolean env = StacksApiMode.writeOnly) ∧
    (env "STACKS_API_MODE" = some "offline" →
      getApiMode parseArgBoolean env = StacksApiMode.offline) ∧
    (env "STACKS_API_MODE" ≠ some "readonly" →
      env "STACKS_API_MODE" ≠ some "writeonly" →
      env "STACKS_API_MODE" ≠ some "offline" →
      getApiMode parseArgBoolean env =
        (if parseArgBoolean (env "STACKS_READ_ONLY_MODE") then StacksApiMode.readOnly
         else if parseArgBoolean (env "STACKS_API_OFFLINE_MODE") then StacksApiMode.offline
         else StacksApiMode.default)) := by
  refine ⟨?_, ?_, ?_, ?_⟩
  · intro h; unfold getApiMode; rw [h]; rfl
  · intro h; unfold getApiMode; rw [h]; rfl
  · intro h; unfold getApiMode; rw [h]; rfl
  · intro h1 h2 h3
    unfold getApiMode
    split
    · exact absurd (by assumption) h1
    · exact absurd (by assumption) h2
    · exact absurd (by assumption) h3
    · rfl

/-! Generic facts about enumFrom used by the burn block handler claim. -/

/-- Projecting the index component out of a function of an enumerated list
    yields the index range. -/
theorem map_enumFrom_idx {α β : Type} (f : Nat × α → β) (g : β → Nat)
    (hg : ∀ p, g (f p) = p.1) :
    ∀ (n : Nat) (l : List α), ((l.enumFrom n).map f).map g = List.range' n l.length := by
  intro n l
  induction l generalizing n with
  | nil => simp
  | cons hd tl ih =>
    simp only [List.enumFrom_cons, List.map_cons, List.length_cons, List.range'_succ]
    rw [hg, ih]

/-- Projecting a value-derived component out of a function of an enumerated
    list yields the corresponding map of the original list. -/
theorem map_enumFrom_val {α β γ : Type} (f : Nat × α → β) (g : β → γ) (h : α → γ)
    (hg : ∀ p, g (f p) = h p.2) :
    ∀ (n : Nat) (l : List α), ((l.enumFrom n).map f).map g = l.map h := by
  intro n l
  induction l generalizing n with
  | nil => simp
  | cons hd tl ih =>
    simp only [List.enumFrom_cons, List.map_cons]
    rw [hg, ih]

/-- C8: handleBurnBlockMessage produces one burnchain reward per recipient
    entry with reward_index equal to its position, and one slot holder per
    address with slot_index equal to its position; both lists preserve the
    emission order of the message. -/
theorem burn_block_rewards_indexed (msg : CoreNodeBurnBlockMessage) :
    ((handleBurnBlockMessage msg).1.rewards.map (fun r => r.reward_index) =
      List.range msg.reward_recipients.length) ∧
    ((handleBurnBlockMessage msg).1.rewards.map (fun r => r.reward_recipient) =
      msg.reward_recipients.map (fun r => r.recipient)) ∧
    ((handleBurnBlockMessage msg).1.rewards.map (fun r => r.reward_amount) =
      msg.reward_recipients.map (fun r => r.amt)) ∧
    ((handleBurnBlockMessage msg).2.slotHolders.map (fun s => s.slot_index) =
      List.range msg.reward_slot_holders.length) ∧
    ((handleBurnBlockMessage msg).2.slotHolders.map (fun s => s.address) =
      msg.reward_slot_holders) := by
  simp only [handleBurnBlockMessage]
  unfold burnRewardsFromMsg slotHoldersFromMsg List.enum
  refine ⟨?_, ?_, ?_, ?_, ?_⟩
  · rw [List.range_eq_range']
    apply map_enumFrom_idx
    intro p; rfl
  · apply map_enumFrom_val
    intro p; rfl
  · apply map_enumFrom_val
    intro p; rfl
  · rw [List.range_eq_range']
    apply map_enumFrom_idx
    intro p; rfl
  · conv_rhs => rw [← List.map_id msg.reward_slot_holders]
    apply map_enumFrom_val
    intro p; rfl

/-- Equality of Except values over decidable payload types is decidable; used
    to evaluate the embedded handlers inside the witness examples. -/
instance exceptDecidableEq {e a : Type} [DecidableEq e] [DecidableEq a] :
    DecidableEq (Except e a) := fun x y =>
  match x, y with
  | Except.ok u, Except.ok v =>
    if h : u = v then Decidable.isTrue (by rw [h])
    else Decidable.isFalse (fun hc => h (Except.ok.inj hc))
  | Except.error u, Except.error v =>
    if h : u = v then Decidable.isTrue (by rw [h])
    else Decidable.isFalse (fun hc => h (Except.error.inj hc))
  | Except.ok _, Except.error _ => Decidable.isFalse (fun hc => Except.noConfusion hc)
  | Except.error _, Except.ok _ => Decidable.isFalse (fun hc => Except.noConfusion hc)

/-- A concrete instantiation of the external reader collaborators, used only
    by the witness examples below. -/
def witnessReaderDeps : ReaderDeps :=
  { parseMessageTransaction := fun _ tx _ _ =>
      if tx.raw_tx == "0xbad" then Except.error "failed to decode transaction"
      else Except.ok (some
        { core_tx := { txid := tx.txid, tx_index := 0, contract_abi := "", status := "success",
                       raw_result := "0x03" }
          parsed_tx := { payload := TxPayload.coinbase }
          sender_address := "SP1"
          sponsor_address := none
          microblock_hash := "" })
    parseMicroblocksFromTxs := fun _ => []
    createDbTxFromCoreMsg := fun ptx =>
      { tx_id := ptx.core_tx.txid, tx_index := ptx.core_tx.tx_index, event_count := 0 }
    parseNameFromContractEvent := fun _ _ _ _ _ => none
    parseNamespaceFromContractEvent := fun _ _ _ => none
    parseNameRenewalWithNoZonefileHashFromContractCall := fun _ _ => none }

/-- A well-formed transaction entry for the witness messages. -/
def witnessBlockTx : CoreNodeBlockTx :=
  { txid := "0x01", raw_tx := "0x00", status := "success", raw_result := "0x03",
    microblock_hash := none, microblock_sequence := none, microblock_parent_hash := none }

/-- A transaction entry whose raw bytes the witness decoder rejects. -/
def witnessBadBlockTx : CoreNodeBlockTx :=
  { witnessBlockTx with raw_tx := "0xbad" }

/-- A block message with one well-formed transaction and no events. -/
def witnessBlockMessage : CoreNodeBlockMessage :=
  { block_hash := "0xb1", index_block_hash := "0xi1", parent_index_block_hash := "0xi0",
    parent_block_hash := "0xb0", parent_microblock := "0x00", parent_microblock_sequence := 0,
    block_height := 2, burn_block_time := 100, burn_block_hash := "0xburn",
    burn_block_height := 7, miner_txid := "0xm1", parent_burn_block_timestamp := 90,
    parent_burn_block_height := 6, parent_burn_block_hash := "0xburn0",
    matured_miner_rewards := [], transactions := [witnessBlockTx], events := [] }

/-- The block message with the rejected transaction. -/
def witnessBadBlockMessage : CoreNodeBlockMessage :=
  { witnessBlockMessage with transactions := [witnessBlockTx, witnessBadBlockTx] }

/-- A microblock message with the rejected transaction. -/
def witnessBadMicroblockMessage : CoreNodeMicroblockMessage :=
  { parent_index_block_hash := "0xi0", burn_block_hash := "0xburn", burn_block_height := 7,
    burn_block_timestamp := 90, transactions := [witnessBlockTx, witnessBadBlockTx],
    events := [] }

/-- Witness for C10: the block handler succeeds on a concrete one-transaction
    message and its block record carries zero execution costs. -/
theorem block_handler_execution_costs_zero_witness :
    handleBlockMessage witnessReaderDeps 1 witnessBlockMessage =
      Except.ok
        { block := dbBlockFromMsg witnessBlockMessage
          microblocks := []
          minerRewards := []
          txs := [{ tx := { tx_id := "0x01", tx_index := 0, event_count := 0 }
                    stxEvents := [], stxLockEvents := [], ftEvents := [], nftEvents := [],
                    contractLogEvents := [], smartContracts := [], names := [],
                    namespaces := [] }] } ∧
    ∀ out, handleBlockMessage witnessReaderDeps 1 witnessBlockMessage = Except.ok out →
      out.block.execution_cost_read_count = 0 := by
  have h : handleBlockMessage witnessReaderDeps 1 witnessBlockMessage =
      Except.ok
        { block := dbBlockFromMsg witnessBlockMessage
          microblocks := []
          minerRewards := []
          txs := [{ tx := { tx_id := "0x01", tx_index := 0, event_count := 0 }
                    stxEvents := [], stxLockEvents := [], ftEvents := [], nftEvents := [],
                    contractLogEvents := [], smartContracts := [], names := [],
                    namespaces := [] }] } := by decide
  exact ⟨h, fun out hout =>
    (block_handler_execution_costs_zero witnessReaderDeps 1 witnessBlockMessage out hout).1⟩

/-- Witness for C2: both handlers reject the concrete messages containing the
    undecodable transaction. -/
theorem decode_failure_aborts_message_witness :
    (∃ e2, handleBlockMessage witnessReaderDeps 1 witnessBadBlockMessage =
      Except.error e2) ∧
    (∃ e2, handleMicroblockMessage witnessReaderDeps 1 witnessBadMicroblockMessage =
      Except.error e2) := by
  constructor
  · exact decode_failure_aborts_message.1 witnessReaderDeps 1 witnessBadBlockMessage
      witnessBadBlockTx "failed to decode transaction" (by decide) (by decide)
  · exact decode_failure_aborts_message.2 witnessReaderDeps 1 witnessBadMicroblockMessage
      witnessBadBlockTx "failed to decode transaction" (by decide) (by decide)

/-- Witness for C9: the recognized mode strings and the legacy fallback are
    exercised on concrete environments. -/
theorem get_api_mode_witness :
    getApiMode (fun _ => false) (fun _ => some "readonly") = StacksApiMode.readOnly ∧
    getApiMode (fun _ => false) (fun _ => some "writeonly") = StacksApiMode.writeOnly ∧
    getApiMode (fun _ => false) (fun _ => some "offline") = StacksApiMode.offline ∧
    getApiMode (fun o => o == some "1")
      (fun v => if v = "STACKS_READ_ONLY_MODE" then some "1" else none) =
      StacksApiMode.readOnly := by
  refine ⟨(get_api_mode_spec _ _).1 rfl, (get_api_mode_spec _ _).2.1 rfl,
    (get_api_mode_spec _ _).2.2.1 rfl, ?_⟩
  have h := (get_api_mode_spec (fun o => o == some "1")
      (fun v => if v = "STACKS_READ_ONLY_MODE" then some "1" else none)).2.2.2
      (by decide) (by decide) (by decide)
  exact h.trans (by decide)

/-- Mapping over a successful Except value applies the function. -/
theorem except_map_ok {ε α β : Type} (f : α → β) (a : α) :
    (Except.ok a : Except ε α).map f = Except.ok (f a) := rfl

/-- Mapping over a failed Except value keeps the error. -/
theorem except_map_err {ε α β : Type} (f : α → β) (e : ε) :
    (Except.error e : Except ε α).map f = Except.error e := rfl

/-- C3: for every POST request, the raw event record with the request path
    and the JSON-serialized body is persisted before the path-specific typed
    handler issues any store call, and a failed raw append aborts the request
    with status 500 without running the typed handler. -/
theorem raw_event_request_first {β : Type} (deps : ServerDeps β) (chainId : ChainID)
    (path : String) (body : β) :
    (∀ e, deps.storeRawEventRequestResult path (deps.jsonStringify body) = Except.error e →
      processPost deps chainId path body = ([], 500)) ∧
    (∀ u, deps.storeRawEventRequestResult path (deps.jsonStringify body) = Except.ok u →
      (processPost deps chainId path body).1.head? =
        some (StoreOp.storeRawEventRequest path (deps.jsonStringify body))) := by
  constructor
  · intro e he
    simp only [processPost]
    rw [he]
  · intro u hu
    simp only [processPost]
    rw [hu]
    repeat' split
    all_goals first | rfl | simp_all

/-- A concrete instantiation of the server collaborators with a healthy
    raw-event store, used by the witness examples. -/
def witnessServerDepsOk : ServerDeps Unit :=
  { reader := witnessReaderDeps
    jsonStringify := fun _ => "{}"
    storeRawEventRequestResult := fun _ _ => Except.ok ()
    asBlockMessage := fun _ => witnessBlockMessage
    asBurnBlockMessage := fun _ =>
      { burn_block_hash := "0xburn", burn_block_height := 7, burn_amount := 0,
        reward_recipients := [], reward_slot_holders := [] }
    asMicroblockMessage := fun _ => witnessBadMicroblockMessage
    asMempoolTxsMessage := fun _ => []
    asDropMempoolTxMessage := fun _ => { dropped_txids := [], reason := "ReplaceByFee" }
    asAttachmentsMessage := fun _ => []
    decodeRawTx := fun _ => Except.error "failed to decode mempool transaction"
    createDbMempoolTxFromCoreMsg := fun tx receiptDate =>
      { tx_id := tx.tx_id, receipt_date := receiptDate }
    getTxDbStatus := fun r => r
    decodeAttachmentMetadata := fun _ => Except.error "failed to decode metadata"
    parseInt10 := fun _ => 0
    bnsContractIdMainnet := "SP000000000000000000002Q6VF78.bns"
    bnsContractIdTestnet := "ST000000000000000000002AMW42H.bns"
    now := 0 }

/-- The same server collaborators with a failing raw-event store. -/
def witnessServerDepsFail : ServerDeps Unit :=
  { witnessServerDepsOk with storeRawEventRequestResult := fun _ _ => Except.error "db down" }

/-- Witness for C3: a failing raw append answers 500 with no store call, and
    a healthy raw append is the first store call of the request. -/
theorem raw_event_request_first_witness :
    processPost witnessServerDepsFail 1 "/new_burn_block" () = ([], 500) ∧
    (processPost witnessServerDepsOk 1 "/new_burn_block" ()).1.head? =
      some (StoreOp.storeRawEventRequest "/new_burn_block" "{}") := by
  constructor
  · exact (raw_event_request_first witnessServerDepsFail 1 "/new_burn_block" ()).1 "db down" rfl
  · exact (raw_event_request_first witnessServerDepsOk 1 "/new_burn_block" ()).2 () rfl

/-! Structural facts about the event scatter loop shared by several claims. -/

/-- Total number of events over the five buckets of one transaction entry. -/
def eventTotals (d : DataStoreTxEventData) : Nat :=
  d.contractLogEvents.length + d.ftEvents.length + d.nftEvents.length +
    d.stxEvents.length + d.stxLockEvents.length

/-- Appending a BNS name leaves the transaction record unchanged. -/
theorem appendBnsName_tx (o : Option DbBnsName) (d : DataStoreTxEventData) :
    (appendBnsName o d).tx = d.tx := by cases o <;> rfl

/-- Appending a BNS name leaves the event totals unchanged. -/
theorem appendBnsName_totals (o : Option DbBnsName) (d : DataStoreTxEventData) :
    eventTotals (appendBnsName o d) = eventTotals d := by cases o <;> rfl

/-- Appending a BNS namespace leaves the transaction record unchanged. -/
theorem appendBnsNamespace_tx (o : Option DbBnsNamespace) (d : DataStoreTxEventData) :
    (appendBnsNamespace o d).tx = d.tx := by cases o <;> rfl

/-- Appending a BNS namespace leaves the event totals unchanged. -/
theorem appendBnsNamespace_totals (o : Option DbBnsNamespace) (d : DataStoreTxEventData) :
    eventTotals (appendBnsNamespace o d) = eventTotals d := by cases o <;> rfl

/-- A successful typed-event append never modifies the transaction record and
    grows the total bucket size by exactly one. -/
theorem applyEventToTx_ok {deps : ReaderDeps} {parsedTxs : List CoreNodeParsedTxMessage}
    {events : List CoreNodeEvent} {blockData : ParseBlockData} {chainId : ChainID}
    {event : CoreNodeEvent} {d d2 : DataStoreTxEventData}
    (h : applyEventToTx deps parsedTxs events blockData chainId event d = Except.ok d2) :
    d2.tx = d.tx ∧ eventTotals d2 = eventTotals d + 1 := by
  unfold applyEventToTx at h
  split at h
  case h_1 =>
    split at h
    · cases h
    · injection h with heq
      subst heq
      constructor
      · rw [appendBnsNamespace_tx, appendBnsName_tx]
      · rw [appendBnsNamespace_totals, appendBnsName_totals]
        simp only [eventTotals, List.length_append, List.length_cons, List.length_nil]
        omega
  all_goals
    injection h with heq
  all_goals
    subst heq
  all_goals
    refine ⟨rfl, ?_⟩
  all_goals
    simp only [eventTotals, List.length_append, List.length_cons, List.length_nil]
  all_goals
    omega

/-- The transaction records of the bundle are unchanged by a successful event
    push. -/
theorem pushEventToTx_txs (mk : DataStoreTxEventData → Except String DataStoreTxEventData)
    (txid : String) (hmk : ∀ d d2, mk d = Except.ok d2 → d2.tx = d.tx) :
    ∀ (l out : List DataStoreTxEventData), pushEventToTx mk txid l = Except.ok out →
      out.map (fun d => d.tx) = l.map (fun d => d.tx) := by
  intro l
  induction l with
  | nil => intro out h; cases h
  | cons d rest ih =>
    intro out h
    unfold pushEventToTx at h
    by_cases hd : (d.tx.tx_id == txid) = true
    · rw [if_pos hd] at h
      cases hmkd : mk d with
      | error e => rw [hmkd, except_map_err] at h; cases h
      | ok d2 =>
        rw [hmkd, except_map_ok] at h
        injection h with heq; subst heq
        simp [hmk d d2 hmkd]
    · rw [if_neg hd] at h
      cases hrec : pushEventToTx mk txid rest with
      | error e => rw [hrec, except_map_err] at h; cases h
      | ok out2 =>
        rw [hrec, except_map_ok] at h
        injection h with heq; subst heq
        simp [ih out2 hrec]

/-- When no bundle entry owns the event, the push fails with the missing-tx
    error of event-server.ts line 372. -/
theorem pushEventToTx_error_of_no_match
    (mk : DataStoreTxEventData → Except String DataStoreTxEventData) (txid : String) :
    ∀ l : List DataStoreTxEventData, (∀ d ∈ l, d.tx.tx_id ≠ txid) →
      pushEventToTx mk txid l =
        Except.error ("Unexpected missing tx during event parsing by tx_id " ++ txid) := by
  intro l
  induction l with
  | nil => intro _; rfl
  | cons d rest ih =>
    intro hno
    have hd : (d.tx.tx_id == txid) = false :=
      beq_eq_false_iff_ne.mpr (hno d (List.mem_cons_self d rest))
    unfold pushEventToTx
    rw [hd]
    simp only [Bool.false_eq_true, if_false]
    rw [ih (fun x hx => hno x (List.mem_cons_of_mem d hx)), except_map_err]

/-- One scatter step keeps the transaction records of the bundle. -/
theorem applyEvent_txs (deps : ReaderDeps) (parsedTxs : List CoreNodeParsedTxMessage)
    (ctx : List CoreNodeEvent) (blockData : ParseBlockData) (chainId : ChainID)
    {l out : List DataStoreTxEventData} {event : CoreNodeEvent}
    (h : applyEvent deps parsedTxs ctx blockData chainId l event = Except.ok out) :
    out.map (fun d => d.tx) = l.map (fun d => d.tx) := by
  unfold applyEvent at h
  by_cases hc : event.committed = false
  · rw [if_pos hc] at h; injection h with heq; subst heq; rfl
  · rw [if_neg hc] at h
    exact pushEventToTx_txs _ _ (fun d d2 hmk => (applyEventToTx_ok hmk).1) l out h

/-- The whole scatter loop keeps the transaction records of the bundle. -/
theorem scatter_fold_txs (deps : ReaderDeps) (parsedTxs : List CoreNodeParsedTxMessage)
    (ctx : List CoreNodeEvent) (blockData : ParseBlockData) (chainId : ChainID) :
    ∀ (events : List CoreNodeEvent) (l out : List DataStoreTxEventData),
      events.foldlM (applyEvent deps parsedTxs ctx blockData chainId) l = Except.ok out →
      out.map (fun d => d.tx) = l.map (fun d => d.tx) := by
  intro events
  induction events with
  | nil => intro l out h; injection h with heq; subst heq; rfl
  | cons e rest ih =>
    intro l out h
    rw [List.foldlM_cons] at h
    cases ha : applyEvent deps parsedTxs ctx blockData chainId l e with
    | error er => rw [ha, except_bind_error] at h; cases h
    | ok mid =>
      rw [ha, except_bind_ok] at h
      rw [ih mid out h, applyEvent_txs deps parsedTxs ctx blockData chainId ha]

/-- The transaction record of a freshly initialized bundle entry is exactly
    the one produced by createDbTxFromCoreMsg. -/
theorem initTxEventData_tx (deps : ReaderDeps) (blockData : ParseBlockData)
    (chainId : ChainID) (tx : CoreNodeParsedTxMessage) :
    (initTxEventData deps blockData chainId tx).tx = deps.createDbTxFromCoreMsg tx := by
  unfold initTxEventData
  split
  · rfl
  · split <;> rfl
  · rfl

/-- C5: a committed event whose transaction id matches no transaction of the
    bundle makes parseDataStoreTxEventData fail with an error; the event is
    neither dropped nor committed as partial state. -/
theorem missing_owner_tx_fatal (deps : ReaderDeps)
    (parsedTxs : List CoreNodeParsedTxMessage) (events : List CoreNodeEvent)
    (blockData : ParseBlockData) (chainId : ChainID) (e : CoreNodeEvent)
    (he : e ∈ events) (hc : e.committed = true)
    (hno : ∀ ptx ∈ parsedTxs, (deps.createDbTxFromCoreMsg ptx).tx_id ≠ e.txid) :
    ∃ msg, parseDataStoreTxEventData deps parsedTxs events blockData chainId =
      Except.error msg := by
  suffices hs : ∃ msg, scatterEvents deps parsedTxs events blockData chainId =
      Except.error msg by
    obtain ⟨msg, hmsg⟩ := hs
    exact ⟨msg, by unfold parseDataStoreTxEventData; rw [hmsg, except_map_err]⟩
  obtain ⟨l1, l2, rfl⟩ := List.append_of_mem he
  unfold scatterEvents
  rw [List.foldlM_append]
  cases h1 : (l1.foldlM (applyEvent deps parsedTxs (l1 ++ e :: l2) blockData chainId)
      (parsedTxs.map (initTxEventData deps blockData chainId))) with
  | error er => exact ⟨er, by rw [except_bind_error]⟩
  | ok mid =>
    rw [except_bind_ok, List.foldlM_cons]
    have hmid : mid.map (fun d => d.tx) =
        (parsedTxs.map (initTxEventData deps blockData chainId)).map (fun d => d.tx) :=
      scatter_fold_txs deps parsedTxs (l1 ++ e :: l2) blockData chainId l1 _ mid h1
    have hnomid : ∀ d ∈ mid, d.tx.tx_id ≠ e.txid := by
      intro d hd
      have : d.tx ∈ mid.map (fun d => d.tx) := List.mem_map_of_mem _ hd
      rw [hmid] at this
      simp only [List.map_map, List.mem_map] at this
      obtain ⟨ptx, hptx, htx⟩ := this
      have : d.tx = deps.createDbTxFromCoreMsg ptx := by
        rw [← htx]; simp [initTxEventData_tx]
      rw [this]
      exact hno ptx hptx
    have happ : applyEvent deps parsedTxs (l1 ++ e :: l2) blockData chainId mid e =
        Except.error ("Unexpected missing tx during event parsing by tx_id " ++ e.txid) := by
      unfold applyEvent
      rw [if_neg (by rw [hc]; simp)]
      exact pushEventToTx_error_of_no_match _ _ mid hnomid
    rw [happ, except_bind_error]
    exact ⟨_, rfl⟩

/-- A committed event owned by no transaction, for the C5 witness. -/
def witnessOrphanEvent : CoreNodeEvent :=
  { txid := "0xff", committed := true, event_index := 0,
    payload := CoreNodeEventPayload.stxMintEvent "SP2" 100 }

/-- A parsed transaction with a different transaction id, for the C5 witness. -/
def witnessParsedTx : CoreNodeParsedTxMessage :=
  { core_tx := { txid := "0x01", tx_index := 0, contract_abi := "", status := "success",
                 raw_result := "0x03" }
    parsed_tx := { payload := TxPayload.coinbase }
    sender_address := "SP1"
    sponsor_address := none
    microblock_hash := "" }

/-- Witness for C5: the concrete orphan event makes the parse fail. -/
theorem missing_owner_tx_fatal_witness :
    ∃ msg, parseDataStoreTxEventData witnessReaderDeps [witnessParsedTx]
      [witnessOrphanEvent] { block_height := 2, index_block_hash := "0xi1" } 1 =
      Except.error msg :=
  missing_owner_tx_fatal witnessReaderDeps [witnessParsedTx] [witnessOrphanEvent]
    { block_height := 2, index_block_hash := "0xi1" } 1 witnessOrphanEvent
    (List.mem_singleton.mpr rfl) rfl (by decide)

/-! Canonical flag invariant through the parse pipeline. -/

/-- Every event record of the five buckets and every smart contract record of
    one bundle entry carries canonical set to true. -/
def txEventsAllCanonical (d : DataStoreTxEventData) : Prop :=
  (∀ ev ∈ d.stxEvents, ev.canonical = true) ∧
  (∀ ev ∈ d.stxLockEvents, ev.canonical = true) ∧
  (∀ ev ∈ d.ftEvents, ev.canonical = true) ∧
  (∀ ev ∈ d.nftEvents, ev.canonical = true) ∧
  (∀ ev ∈ d.contractLogEvents, ev.canonical = true) ∧
  (∀ sc ∈ d.smartContracts, sc.canonical = true)

/-- Freshly initialized bundle entries satisfy the canonical invariant. -/
theorem initTxEventData_canonical (deps : ReaderDeps) (blockData : ParseBlockData)
    (chainId : ChainID) (tx : CoreNodeParsedTxMessage) :
    txEventsAllCanonical (initTxEventData deps blockData chainId tx) := by
  unfold initTxEventData txEventsAllCanonical
  split
  · refine ⟨?_, ?_, ?_, ?_, ?_, ?_⟩ <;> intro x hx <;> simp at hx
    rw [hx]
  · split <;> (refine ⟨?_, ?_, ?_, ?_, ?_, ?_⟩ <;> intro x hx <;> simp at hx)
  · refine ⟨?_, ?_, ?_, ?_, ?_, ?_⟩ <;> intro x hx <;> simp at hx

/-- Appending a BNS name does not touch the event buckets or smart contract
    records. -/
theorem txEventsAllCanonical_appendBnsName (o : Option DbBnsName)
    (d : DataStoreTxEventData) :
    txEventsAllCanonical (appendBnsName o d) = txEventsAllCanonical d := by
  cases o <;> rfl

/-- Appending a BNS namespace likewise. -/
theorem txEventsAllCanonical_appendBnsNamespace (o : Option DbBnsNamespace)
    (d : DataStoreTxEventData) :
    txEventsAllCanonical (appendBnsNamespace o d) = txEventsAllCanonical d := by
  cases o <;> rfl

/-- The typed-event append preserves the canonical invariant: every appended
    record has canonical set to true. -/
theorem applyEventToTx_canonical {deps : ReaderDeps}
    {parsedTxs : List CoreNodeParsedTxMessage} {events : List CoreNodeEvent}
    {blockData : ParseBlockData} {chainId : ChainID} {event : CoreNodeEvent}
    {d d2 : DataStoreTxEventData}
    (h : applyEventToTx deps parsedTxs events blockData chainId event d = Except.ok d2)
    (hd : txEventsAllCanonical d) : txEventsAllCanonical d2 := by
  obtain ⟨h1, h2, h3, h4, h5, h6⟩ := hd
  unfold applyEventToTx at h
  split at h
  case h_1 =>
    split at h
    · cases h
    · injection h with heq
      subst heq
      rw [txEventsAllCanonical_appendBnsNamespace, txEventsAllCanonical_appendBnsName]
      refine ⟨h1, h2, h3, h4, ?_, h6⟩
      intro x hx
      rcases List.mem_append.mp hx with hx2 | hx2
      · exact h5 x hx2
      · rw [List.mem_singleton] at hx2; subst hx2; rfl
  all_goals
    injection h with heq
  all_goals
    subst heq
  all_goals
    refine ⟨?_, ?_, ?_, ?_, ?_, ?_⟩ <;> intro x hx <;>
      first
        | exact h1 x hx
        | exact h2 x hx
        | exact h3 x hx
        | exact h4 x hx
        | exact h5 x hx
        | exact h6 x hx
        | (rcases List.mem_append.mp hx with hx2 | hx2
           · first
              | exact h1 x hx2
              | exact h2 x hx2
              | exact h3 x hx2
              | exact h4 x hx2
              | exact h5 x hx2
              | exact h6 x hx2
           · rw [List.mem_singleton] at hx2; subst hx2; rfl)

/-- Pushing one event keeps the canonical invariant on every bundle entry. -/
theorem pushEventToTx_forall {P : DataStoreTxEventData → Prop}
    (mk : DataStoreTxEventData → Except String DataStoreTxEventData) (txid : String)
    (hmk : ∀ d d2, P d → mk d = Except.ok d2 → P d2) :
    ∀ (l out : List DataStoreTxEventData), (∀ d ∈ l, P d) →
      pushEventToTx mk txid l = Except.ok out → ∀ d ∈ out, P d := by
  intro l
  induction l with
  | nil => intro out _ h; cases h
  | cons d rest ih =>
    intro out hl h
    unfold pushEventToTx at h
    by_cases hd : (d.tx.tx_id == txid) = true
    · rw [if_pos hd] at h
      cases hmkd : mk d with
      | error e => rw [hmkd, except_map_err] at h; cases h
      | ok dn =>
        rw [hmkd, except_map_ok] at h
        injection h with heq; subst heq
        intro x hx
        rcases List.mem_cons.mp hx with rfl | hx2
        · exact hmk d x (hl d (List.mem_cons_self d rest)) hmkd
        · exact hl x (List.mem_cons_of_mem d hx2)
    · rw [if_neg hd] at h
      cases hrec : pushEventToTx mk txid rest with
      | error e => rw [hrec, except_map_err] at h; cases h
      | ok out2 =>
        rw [hrec, except_map_ok] at h
        injection h with heq; subst heq
        intro x hx
        rcases List.mem_cons.mp hx with rfl | hx2
        · exact hl x (List.mem_cons_self x rest)
        · exact ih out2 (fun y hy => hl y (List.mem_cons_of_mem d hy)) hrec x hx2

/-- The whole scatter loop keeps the canonical invariant on every entry. -/
theorem scatter_fold_canonical (deps : ReaderDeps)
    (parsedTxs : List CoreNodeParsedTxMessage) (ctx : List CoreNodeEvent)
    (blockData : ParseBlockData) (chainId : ChainID) :
    ∀ (events : List CoreNodeEvent) (l out : List DataStoreTxEventData),
      (∀ d ∈ l, txEventsAllCanonical d) →
      events.foldlM (applyEvent deps parsedTxs ctx blockData chainId) l = Except.ok out →
      ∀ d ∈ out, txEventsAllCanonical d := by
  intro events
  induction events with
  | nil => intro l out hl h; injection h with heq; subst heq; exact hl
  | cons e rest ih =>
    intro l out hl h
    rw [List.foldlM_cons] at h
    cases ha : applyEvent deps parsedTxs ctx blockData chainId l e with
    | error er => rw [ha, except_bind_error] at h; cases h
    | ok mid =>
      rw [ha, except_bind_ok] at h
      refine ih mid out ?_ h
      unfold applyEvent at ha
      by_cases hc : e.committed = false
      · rw [if_pos hc] at ha; injection ha with heq; subst heq; exact hl
      · rw [if_neg hc] at ha
        exact pushEventToTx_forall _ _
          (fun d d2 hP hmk => applyEventToTx_canonical hmk hP) l mid hl ha

/-- Renumbering only rewrites event indexes: every output entry is an update
    of some input entry. -/
theorem mem_renumberFrom {α : Type} (upd : α → Nat → α) (g : Nat → Nat) :
    ∀ (p : Nat) (l : List α) (x : α), x ∈ renumberFrom upd g p l →
      ∃ e ∈ l, ∃ i, x = upd e i := by
  intro p l
  induction l generalizing p with
  | nil => intro x hx; cases hx
  | cons hd tl ih =>
    intro x hx
    rcases List.mem_cons.mp hx with rfl | hx2
    · exact ⟨hd, List.mem_cons_self hd tl, g p, rfl⟩
    · obtain ⟨e, he, i, hei⟩ := ih (p + 1) x hx2
      exact ⟨e, List.mem_cons_of_mem hd he, i, hei⟩

/-- Normalization preserves the canonical invariant. -/
theorem normalizeTxEvents_canonical {d : DataStoreTxEventData}
    (hd : txEventsAllCanonical d) : txEventsAllCanonical (normalizeTxEvents d) := by
  obtain ⟨h1, h2, h3, h4, h5, h6⟩ := hd
  unfold normalizeTxEvents txEventsAllCanonical
  refine ⟨?_, ?_, ?_, ?_, ?_, ?_⟩ <;> intro x hx
  · obtain ⟨e, he, i, rfl⟩ := mem_renumberFrom _ _ _ _ _ hx
    exact h1 e he
  · obtain ⟨e, he, i, rfl⟩ := mem_renumberFrom _ _ _ _ _ hx
    exact h2 e he
  · obtain ⟨e, he, i, rfl⟩ := mem_renumberFrom _ _ _ _ _ hx
    exact h3 e he
  · obtain ⟨e, he, i, rfl⟩ := mem_renumberFrom _ _ _ _ _ hx
    exact h4 e he
  · obtain ⟨e, he, i, rfl⟩ := mem_renumberFrom _ _ _ _ _ hx
    exact h5 e he
  · exact h6 x hx

/-- Every transaction entry of a successful parse satisfies the canonical
    invariant. -/
theorem parse_all_canonical {deps : ReaderDeps}
    {parsedTxs : List CoreNodeParsedTxMessage} {events : List CoreNodeEvent}
    {blockData : ParseBlockData} {chainId : ChainID} {out : List DataStoreTxEventData}
    (h : parseDataStoreTxEventData deps parsedTxs events blockData chainId = Except.ok out) :
    ∀ d ∈ out, txEventsAllCanonical d := by
  unfold parseDataStoreTxEventData at h
  cases hs : scatterEvents deps parsedTxs events blockData chainId with
  | error e => rw [hs, except_map_err] at h; cases h
  | ok scattered =>
    rw [hs, except_map_ok] at h
    injection h with heq; subst heq
    intro d hd
    rw [List.mem_map] at hd
    obtain ⟨u, hu, rfl⟩ := hd
    refine normalizeTxEvents_canonical ?_
    refine scatter_fold_canonical deps parsedTxs events blockData chainId events _ scattered
      ?_ hs u hu
    intro x hx
    rw [List.mem_map] at hx
    obtain ⟨ptx, _, rfl⟩ := hx
    exact initTxEventData_canonical deps blockData chainId ptx

/-- C6: every record the handlers construct and pass to the store that carries
    a canonical flag carries canonical set to true: the block, the completed
    microblocks, the miner rewards, the burnchain rewards, the reward slot
    holders, the smart contracts and every event of every kind. -/
theorem all_records_inserted_canonical :
    (∀ (deps : ReaderDeps) (chainId : ChainID) (msg : CoreNodeBlockMessage)
        (out : DataStoreBlockUpdateData),
      handleBlockMessage deps chainId msg = Except.ok out →
      out.block.canonical = true ∧
      (∀ mb ∈ out.microblocks, mb.canonical = true ∧ mb.microblock_canonical = true) ∧
      (∀ r ∈ out.minerRewards, r.canonical = true) ∧
      (∀ t ∈ out.txs, txEventsAllCanonical t)) ∧
    (∀ (deps : ReaderDeps) (chainId : ChainID) (msg : CoreNodeMicroblockMessage)
        (out : DataStoreMicroblockUpdateData),
      handleMicroblockMessage deps chainId msg = Except.ok out →
      ∀ t ∈ out.txs, txEventsAllCanonical t) ∧
    (∀ msg : CoreNodeBurnBlockMessage,
      (∀ r ∈ (handleBurnBlockMessage msg).1.rewards, r.canonical = true) ∧
      (∀ s ∈ (handleBurnBlockMessage msg).2.slotHolders, s.canonical = true)) := by
  refine ⟨?_, ?_, ?_⟩
  · intro deps chainId msg out h
    obtain ⟨parsedTxs, txs, hc, hp, hout⟩ := handleBlockMessage_ok h
    subst hout
    refine ⟨rfl, ?_, ?_, ?_⟩
    · intro mb hmb
      unfold dbMicroblocksFromMsg at hmb
      rw [List.mem_map] at hmb
      obtain ⟨m, _, rfl⟩ := hmb
      exact ⟨rfl, rfl⟩
    · intro r hr
      unfold dbMinerRewardsFromMsg at hr
      rw [List.mem_map] at hr
      obtain ⟨m, _, rfl⟩ := hr
      rfl
    · exact parse_all_canonical hp
  · intro deps chainId msg out h
    obtain ⟨parsedTxs, txs, hc, hp, hout⟩ := handleMicroblockMessage_ok h
    subst hout
    exact parse_all_canonical hp
  · intro msg
    constructor
    · intro r hr
      unfold handleBurnBlockMessage burnRewardsFromMsg at hr
      rw [List.mem_map] at hr
      obtain ⟨m, _, rfl⟩ := hr
      rfl
    · intro s hs
      unfold handleBurnBlockMessage slotHoldersFromMsg at hs
      rw [List.mem_map] at hs
      obtain ⟨m, _, rfl⟩ := hs
      rfl

/-- A block message with one committed and one uncommitted event, used by the
    witness examples. -/
def witnessEventBlockMessage : CoreNodeBlockMessage :=
  { witnessBlockMessage with events :=
      [{ txid := "0x01", committed := true, event_index := 5,
         payload := CoreNodeEventPayload.stxTransferEvent "SP1" "SP2" 100 },
       { txid := "0x01", committed := false, event_index := 6,
         payload := CoreNodeEventPayload.stxMintEvent "SP2" 7 }] }

/-- The update bundle the block handler produces for that message. -/
def witnessEventBlockOut : DataStoreBlockUpdateData :=
  { block := dbBlockFromMsg witnessEventBlockMessage
    microblocks := []
    minerRewards := []
    txs := [{ tx := { tx_id := "0x01", tx_index := 0, event_count := 1 }
              stxEvents := [{ toDbEventBase :=
                                { event_index := 0, tx_id := "0x01", tx_index := 0,
                                  block_height := 2, canonical := true }
                              event_type := DbEventTypeId.StxAsset
                              asset_event_type_id := DbAssetEventTypeId.Transfer
                              sender := some "SP1"
                              recipient := some "SP2"
                              amount := 100 }]
              stxLockEvents := []
              ftEvents := []
              nftEvents := []
              contractLogEvents := []
              smartContracts := []
              names := []
              namespaces := [] }] }

/-- A burn block message with one recipient and one slot holder. -/
def witnessBurnBlockMessage : CoreNodeBurnBlockMessage :=
  { burn_block_hash := "0xburn", burn_block_height := 7, burn_amount := 3,
    reward_recipients := [{ recipient := "SPR", amt := 2 }],
    reward_slot_holders := ["SPS"] }

/-- Witness for C6: the concrete block run succeeds and every canonical flag
    of its bundle and of a concrete burn block bundle is true. -/
theorem all_records_inserted_canonical_witness :
    handleBlockMessage witnessReaderDeps 1 witnessEventBlockMessage =
      Except.ok witnessEventBlockOut ∧
    witnessEventBlockOut.block.canonical = true ∧
    (∀ t ∈ witnessEventBlockOut.txs, txEventsAllCanonical t) ∧
    (∀ r ∈ (handleBurnBlockMessage witnessBurnBlockMessage).1.rewards,
      r.canonical = true) := by
  have h : handleBlockMessage witnessReaderDeps 1 witnessEventBlockMessage =
      Except.ok witnessEventBlockOut := by decide
  have hb := all_records_inserted_canonical.1 witnessReaderDeps 1 witnessEventBlockMessage
    witnessEventBlockOut h
  have hburn := (all_records_inserted_canonical.2.2 witnessBurnBlockMessage).1
  exact ⟨h, hb.1, hb.2.2.2, hburn⟩

/-! The committed-filter property: everything except the BNS name records is
    unchanged when uncommitted events are removed up front. -/

/-- Projection of one bundle entry to its transaction record, its five event
    buckets and its smart contract records; the BNS name and namespace
    records (whose extractors receive the raw event list) are left out. -/
def coreProjection (d : DataStoreTxEventData) :
    DbTx × List DbStxEvent × List DbStxLockEvent × List DbFtEvent × List DbNftEvent ×
      List DbSmartContractEvent × List DbSmartContract :=
  (d.tx, d.stxEvents, d.stxLockEvents, d.ftEvents, d.nftEvents, d.contractLogEvents,
    d.smartContracts)

/-- Appending a BNS name does not change the core projection. -/
theorem coreProjection_appendBnsName (o : Option DbBnsName) (d : DataStoreTxEventData) :
    coreProjection (appendBnsName o d) = coreProjection d := by
  cases o <;> rfl

/-- Appending a BNS namespace does not change the core projection. -/
theorem coreProjection_appendBnsNamespace (o : Option DbBnsNamespace)
    (d : DataStoreTxEventData) :
    coreProjection (appendBnsNamespace o d) = coreProjection d := by
  cases o <;> rfl

/-- The typed-event append acts identically on the core projection whatever
    raw event list the BNS extractor receives. -/
theorem applyEventToTx_core (deps : ReaderDeps) (parsedTxs : List CoreNodeParsedTxMessage)
    (ctx1 ctx2 : List CoreNodeEvent) (blockData : ParseBlockData) (chainId : ChainID)
    (event : CoreNodeEvent) (d1 d2 : DataStoreTxEventData)
    (hd : coreProjection d1 = coreProjection d2) :
    (applyEventToTx deps parsedTxs ctx1 blockData chainId event d1).map coreProjection =
      (applyEventToTx deps parsedTxs ctx2 blockData chainId event d2).map coreProjection := by
  simp only [coreProjection, Prod.mk.injEq] at hd
  obtain ⟨htx, hstx, hlock, hft, hnft, hcl, hsc⟩ := hd
  unfold applyEventToTx
  cases hp : event.payload
  case contractEvent ci topic rv =>
    cases hf : parsedTxs.find? (fun ptx => ptx.core_tx.txid == event.txid) with
    | none => rfl
    | some ptx =>
      rw [except_map_ok, except_map_ok, coreProjection_appendBnsNamespace,
        coreProjection_appendBnsName, coreProjection_appendBnsNamespace,
        coreProjection_appendBnsName]
      simp [coreProjection, htx, hstx, hlock, hft, hnft, hcl, hsc]
  all_goals simp [except_map_ok, coreProjection, htx, hstx, hlock, hft, hnft, hcl, hsc]

/-- Pushing one event acts identically on the core projections of the whole
    bundle. -/
theorem pushEventToTx_core
    (mk1 mk2 : DataStoreTxEventData → Except String DataStoreTxEventData) (txid : String)
    (hmk : ∀ d1 d2, coreProjection d1 = coreProjection d2 →
      (mk1 d1).map coreProjection = (mk2 d2).map coreProjection) :
    ∀ (l1 l2 : List DataStoreTxEventData),
      l1.map coreProjection = l2.map coreProjection →
      (pushEventToTx mk1 txid l1).map (List.map coreProjection) =
        (pushEventToTx mk2 txid l2).map (List.map coreProjection) := by
  intro l1
  induction l1 with
  | nil =>
    intro l2 h
    cases l2 with
    | nil => rfl
    | cons d2 r2 => cases h
  | cons d1 r1 ih =>
    intro l2 h
    cases l2 with
    | nil => cases h
    | cons d2 r2 =>
      rw [List.map_cons, List.map_cons] at h
      injection h with hhd htl
      have htxid : d1.tx.tx_id = d2.tx.tx_id := by
        have htx : d1.tx = d2.tx := congrArg (fun t => t.1) hhd
        rw [htx]
      unfold pushEventToTx
      by_cases hd : (d1.tx.tx_id == txid) = true
      · rw [if_pos hd, if_pos (by rw [← htxid]; exact hd)]
        have hmks := hmk d1 d2 hhd
        cases hm1 : mk1 d1 with
        | error e =>
          rw [hm1, except_map_err] at hmks
          cases hm2 : mk2 d2 with
          | error e2 =>
            rw [hm2, except_map_err] at hmks
            injection hmks with he; subst he
            rfl
          | ok o2 => rw [hm2, except_map_ok] at hmks; cases hmks
        | ok o1 =>
          rw [hm1, except_map_ok] at hmks
          cases hm2 : mk2 d2 with
          | error e2 => rw [hm2, except_map_err] at hmks; cases hmks
          | ok o2 =>
            rw [hm2, except_map_ok] at hmks
            injection hmks with ho
            simp only [except_map_ok]
            simp [ho, htl]
      · rw [if_neg hd, if_neg (by rw [← htxid]; exact hd)]
        have hrec := ih r2 htl
        cases hr1 : pushEventToTx mk1 txid r1 with
        | error e =>
          rw [hr1, except_map_err] at hrec
          cases hr2 : pushEventToTx mk2 txid r2 with
          | error e2 =>
            rw [hr2, except_map_err] at hrec
            injection hrec with he; subst he
            rfl
          | ok o2 => rw [hr2, except_map_ok] at hrec; cases hrec
        | ok o1 =>
          rw [hr1, except_map_ok] at hrec
          cases hr2 : pushEventToTx mk2 txid r2 with
          | error e2 => rw [hr2, except_map_err] at hrec; cases hrec
          | ok o2 =>
            rw [hr2, except_map_ok] at hrec
            injection hrec with ho
            simp only [except_map_ok]
            simp [ho, hhd]

/-- The scatter loop over all events agrees, on the core projection, with the
    scatter loop over the committed events only. -/
theorem scatter_core (deps : ReaderDeps) (parsedTxs : List CoreNodeParsedTxMessage)
    (blockData : ParseBlockData) (chainId : ChainID) (ctx1 ctx2 : List CoreNodeEvent) :
    ∀ (events : List CoreNodeEvent) (l1 l2 : List DataStoreTxEventData),
      l1.map coreProjection = l2.map coreProjection →
      (events.foldlM (applyEvent deps parsedTxs ctx1 blockData chainId) l1).map
          (List.map coreProjection) =
        ((events.filter (fun e => e.committed)).foldlM
            (applyEvent deps parsedTxs ctx2 blockData chainId) l2).map
          (List.map coreProjection) := by
  intro events
  induction events with
  | nil =>
    intro l1 l2 h
    show Except.ok (l1.map coreProjection) = Except.ok (l2.map coreProjection)
    rw [h]
  | cons e rest ih =>
    intro l1 l2 h
    rw [List.foldlM_cons]
    by_cases hc : e.committed = true
    · rw [List.filter_cons_of_pos hc, List.foldlM_cons]
      have hstep : (applyEvent deps parsedTxs ctx1 blockData chainId l1 e).map
          (List.map coreProjection) =
          (applyEvent deps parsedTxs ctx2 blockData chainId l2 e).map
            (List.map coreProjection) := by
        unfold applyEvent
        rw [if_neg (by rw [hc]; simp), if_neg (by rw [hc]; simp)]
        exact pushEventToTx_core _ _ _ (fun d1 d2 hd =>
          applyEventToTx_core deps parsedTxs ctx1 ctx2 blockData chainId e d1 d2 hd) l1 l2 h
      cases ha1 : applyEvent deps parsedTxs ctx1 blockData chainId l1 e with
      | error er =>
        rw [ha1, except_map_err] at hstep
        cases ha2 : applyEvent deps parsedTxs ctx2 blockData chainId l2 e with
        | error er2 =>
          rw [ha2, except_map_err] at hstep
          injection hstep with he; subst he
          rw [except_bind_error, except_bind_error]
        | ok m2 => rw [ha2, except_map_ok] at hstep; cases hstep
      | ok m1 =>
        rw [ha1, except_map_ok] at hstep
        cases ha2 : applyEvent deps parsedTxs ctx2 blockData chainId l2 e with
        | error er2 => rw [ha2, except_map_err] at hstep; cases hstep
        | ok m2 =>
          rw [ha2, except_map_ok] at hstep
          injection hstep with hm
          rw [except_bind_ok, except_bind_ok]
          exact ih m1 m2 hm
    · rw [List.filter_cons_of_neg (by simpa using hc)]
      have hskip : applyEvent deps parsedTxs ctx1 blockData chainId l1 e = Except.ok l1 := by
        unfold applyEvent
        rw [if_pos (by simpa using hc)]
      rw [hskip, except_bind_ok]
      exact ih l1 l2 h

/-- Normalization only depends on, and only changes, the core projection. -/
theorem normalizeTxEvents_core {d1 d2 : DataStoreTxEventData}
    (h : coreProjection d1 = coreProjection d2) :
    coreProjection (normalizeTxEvents d1) = coreProjection (normalizeTxEvents d2) := by
  simp only [coreProjection, Prod.mk.injEq] at h
  obtain ⟨htx, hstx, hlock, hft, hnft, hcl, hsc⟩ := h
  have hidx : bucketIndexTriples d1 = bucketIndexTriples d2 := by
    unfold bucketIndexTriples txEventIndexLists
    rw [hstx, hlock, hft, hnft, hcl]
  simp only [normalizeTxEvents, coreProjection, Prod.mk.injEq]
  rw [hidx, htx, hstx, hlock, hft, hnft, hcl, hsc]
  exact ⟨rfl, rfl, rfl, rfl, rfl, rfl, rfl⟩

/-- Normalizing two core-equal bundles yields core-equal bundles. -/
theorem map_core_normalize_congr :
    ∀ (l1 l2 : List DataStoreTxEventData), l1.map coreProjection = l2.map coreProjection →
      (l1.map normalizeTxEvents).map coreProjection =
        (l2.map normalizeTxEvents).map coreProjection := by
  intro l1
  induction l1 with
  | nil =>
    intro l2 h
    cases l2 with
    | nil => rfl
    | cons d2 r2 => cases h
  | cons d1 r1 ih =>
    intro l2 h
    cases l2 with
    | nil => cases h
    | cons d2 r2 =>
      rw [List.map_cons, List.map_cons] at h
      injection h with hhd htl
      simp only [List.map_cons]
      rw [normalizeTxEvents_core hhd, ih r2 htl]

/-- C4: no event with committed false ever appears in the event buckets of
    the parse result: on everything except the BNS name records, parsing is
    unchanged when the uncommitted events are filtered away up front (so they
    are dropped before scatter and renumbering). -/
theorem uncommitted_events_dropped (deps : ReaderDeps)
    (parsedTxs : List CoreNodeParsedTxMessage) (events : List CoreNodeEvent)
    (blockData : ParseBlockData) (chainId : ChainID) :
    (parseDataStoreTxEventData deps parsedTxs events blockData chainId).map
        (List.map coreProjection) =
      (parseDataStoreTxEventData deps parsedTxs (events.filter (fun e => e.committed))
          blockData chainId).map (List.map coreProjection) := by
  unfold parseDataStoreTxEventData scatterEvents
  have hs := scatter_core deps parsedTxs blockData chainId events
    (events.filter (fun e => e.committed)) events
    (parsedTxs.map (initTxEventData deps blockData chainId))
    (parsedTxs.map (initTxEventData deps blockData chainId)) rfl
  rw [except_map_map, except_map_map]
  cases h1 : events.foldlM (applyEvent deps parsedTxs events blockData chainId)
      (parsedTxs.map (initTxEventData deps blockData chainId)) with
  | error e1 =>
    rw [h1, except_map_err] at hs
    cases h2 : (events.filter (fun e => e.committed)).foldlM
        (applyEvent deps parsedTxs (events.filter (fun e => e.committed)) blockData chainId)
        (parsedTxs.map (initTxEventData deps blockData chainId)) with
    | error e2 =>
      rw [h2, except_map_err] at hs
      injection hs with he; subst he
      rfl
    | ok o2 => rw [h2, except_map_ok] at hs; cases hs
  | ok o1 =>
    rw [h1, except_map_ok] at hs
    cases h2 : (events.filter (fun e => e.committed)).foldlM
        (applyEvent deps parsedTxs (events.filter (fun e => e.committed)) blockData chainId)
        (parsedTxs.map (initTxEventData deps blockData chainId)) with
    | error e2 => rw [h2, except_map_err] at hs; cases hs
    | ok o2 =>
      rw [h2, except_map_ok] at hs
      injection hs with hm
      rw [except_map_ok, except_map_ok]
      rw [map_core_normalize_congr o1 o2 hm]

/-! Event index normalization: facts about the tagging, sorting and
    renumbering machinery of normalizeTxEvents. -/

/-- The tag (bucket id, position inside the bucket) of one merged triple; it
    models the object identity of the event record. -/
def tripleTag (t : Nat × Nat × Nat) : Nat × Nat := (t.1, t.2.1)

/-- Tagging a bucket does not change its length. -/
theorem tagIdxFrom_length (b : Nat) : ∀ (p : Nat) (l : List Nat),
    (tagIdxFrom b p l).length = l.length := by
  intro p l
  induction l generalizing p with
  | nil => rfl
  | cons hd tl ih => simp [tagIdxFrom, ih]

/-- The tags of one tagged bucket are the bucket id paired with consecutive
    positions. -/
theorem tagIdxFrom_map_tag (b : Nat) : ∀ (p : Nat) (l : List Nat),
    (tagIdxFrom b p l).map tripleTag = (List.range' p l.length).map (fun q => (b, q)) := by
  intro p l
  induction l generalizing p with
  | nil => rfl
  | cons hd tl ih => simp [tagIdxFrom, List.range'_succ, tripleTag, ih]

/-- Every triple of one tagged bucket carries that bucket id. -/
theorem mem_tagIdxFrom_fst (b : Nat) : ∀ (p : Nat) (l : List Nat) (x : Nat × Nat × Nat),
    x ∈ tagIdxFrom b p l → x.1 = b := by
  intro p l
  induction l generalizing p with
  | nil => intro x hx; cases hx
  | cons hd tl ih =>
    intro x hx
    rcases List.mem_cons.mp hx with rfl | hx2
    · rfl
    · exact ih (p + 1) x hx2

/-- Bucket ids of the concatenated tagged buckets start at the base id. -/
theorem mem_tagBlocks_fst_ge : ∀ (ls : List (List Nat)) (b : Nat) (x : Nat × Nat × Nat),
    x ∈ tagBlocks b ls → b ≤ x.1 := by
  intro ls
  induction ls with
  | nil => intro b x hx; cases hx
  | cons l rest ih =>
    intro b x hx
    rcases List.mem_append.mp hx with hx2 | hx2
    · rw [mem_tagIdxFrom_fst b 0 l x hx2]
    · exact Nat.le_of_succ_le (ih (b + 1) x hx2)

/-- The tags of the concatenated tagged buckets are pairwise distinct. -/
theorem tagBlocks_map_tag_nodup : ∀ (ls : List (List Nat)) (b : Nat),
    ((tagBlocks b ls).map tripleTag).Nodup := by
  intro ls
  induction ls with
  | nil => intro b; exact List.nodup_nil
  | cons l rest ih =>
    intro b
    show ((tagIdxFrom b 0 l ++ tagBlocks (b + 1) rest).map tripleTag).Nodup
    rw [List.map_append]
    refine List.Nodup.append ?_ (ih (b + 1)) ?_
    · rw [tagIdxFrom_map_tag]
      refine List.Nodup.map ?_ (List.nodup_range' 0 l.length)
      intro q1 q2 hq
      exact (Prod.mk.injEq b q1 b q2).mp hq |>.2
    · intro a ha hb
      rw [tagIdxFrom_map_tag] at ha
      rw [List.mem_map] at ha hb
      obtain ⟨q, _, rfl⟩ := ha
      obtain ⟨t, ht, hta⟩ := hb
      have h1 : b + 1 ≤ t.1 := mem_tagBlocks_fst_ge rest (b + 1) t ht
      have h2 : t.1 = b := congrArg Prod.fst hta
      omega

/-- The merged triple list has one entry per bucket event. -/
theorem bucketIndexTriples_length (d : DataStoreTxEventData) :
    (bucketIndexTriples d).length = eventTotals d := by
  show (tagBlocks 0 (txEventIndexLists d)).length = eventTotals d
  simp [txEventIndexLists, tagBlocks, eventTotals, tagIdxFrom_length, List.length_append]
  omega

/-- Tagging the renumbered index list retags each triple in place. -/
theorem tagIdxFrom_range'_map (b : Nat) (f : Nat → Nat) :
    ∀ (p : Nat) (l : List Nat),
      tagIdxFrom b p ((List.range' p l.length).map f) =
        (tagIdxFrom b p l).map (fun t => (t.1, t.2.1, f t.2.1)) := by
  intro p l
  induction l generalizing p with
  | nil => rfl
  | cons hd tl ih => simp [List.range'_succ, tagIdxFrom, ih]

/-- The projected indexes of a renumbered bucket are the assignment applied
    to consecutive positions. -/
theorem renumberFrom_map_proj {α : Type} (upd : α → Nat → α) (proj : α → Nat)
    (hcompat : ∀ e i, proj (upd e i) = i) (g : Nat → Nat) :
    ∀ (p : Nat) (l : List α),
      (renumberFrom upd g p l).map proj = (List.range' p l.length).map g := by
  intro p l
  induction l generalizing p with
  | nil => rfl
  | cons hd tl ih => simp [renumberFrom, List.range'_succ, hcompat, ih]

/-- Renumbering all five buckets through a position assignment retags every
    merged triple in place. -/
theorem bucketIndexTriples_renumber (d : DataStoreTxEventData) (g : Nat → Nat → Nat) :
    tagBlocks 0
      [(renumberFrom (fun (e : DbSmartContractEvent) i => { e with event_index := i })
          (g 0) 0 d.contractLogEvents).map (fun e => e.event_index),
       (renumberFrom (fun (e : DbFtEvent) i => { e with event_index := i })
          (g 1) 0 d.ftEvents).map (fun e => e.event_index),
       (renumberFrom (fun (e : DbNftEvent) i => { e with event_index := i })
          (g 2) 0 d.nftEvents).map (fun e => e.event_index),
       (renumberFrom (fun (e : DbStxEvent) i => { e with event_index := i })
          (g 3) 0 d.stxEvents).map (fun e => e.event_index),
       (renumberFrom (fun (e : DbStxLockEvent) i => { e with event_index := i })
          (g 4) 0 d.stxLockEvents).map (fun e => e.event_index)] =
      (bucketIndexTriples d).map (fun t => (t.1, t.2.1, g t.1 t.2.1)) := by
  rw [renumberFrom_map_proj _ _ (fun e i => rfl),
      renumberFrom_map_proj _ _ (fun e i => rfl),
      renumberFrom_map_proj _ _ (fun e i => rfl),
      renumberFrom_map_proj _ _ (fun e i => rfl),
      renumberFrom_map_proj _ _ (fun e i => rfl)]
  conv_rhs => rw [bucketIndexTriples, txEventIndexLists]
  rw [tagBlocks, tagBlocks, tagBlocks, tagBlocks, tagBlocks, tagBlocks]
  conv_rhs => rw [tagBlocks, tagBlocks, tagBlocks, tagBlocks, tagBlocks, tagBlocks]
  rw [List.append_nil, List.append_nil]
  rw [← List.length_map (d.contractLogEvents) (fun e => e.event_index),
      ← List.length_map (d.ftEvents) (fun e => e.event_index),
      ← List.length_map (d.nftEvents) (fun e => e.event_index),
      ← List.length_map (d.stxEvents) (fun e => e.event_index),
      ← List.length_map (d.stxLockEvents) (fun e => e.event_index)]
  rw [tagIdxFrom_range'_map, tagIdxFrom_range'_map, tagIdxFrom_range'_map,
      tagIdxFrom_range'_map, tagIdxFrom_range'_map]
  rw [List.map_append, List.map_append, List.map_append, List.map_append]
  congr 1
  · exact List.map_congr_left (fun t ht => by
      rw [mem_tagIdxFrom_fst 0 0 _ t ht])
  congr 1
  · exact List.map_congr_left (fun t ht => by
      rw [mem_tagIdxFrom_fst (0 + 1) 0 _ t ht])
  congr 1
  · exact List.map_congr_left (fun t ht => by
      rw [mem_tagIdxFrom_fst (0 + 1 + 1) 0 _ t ht])
  congr 1
  · exact List.map_congr_left (fun t ht => by
      rw [mem_tagIdxFrom_fst (0 + 1 + 1 + 1) 0 _ t ht])
  exact List.map_congr_left (fun t ht => by
    rw [mem_tagIdxFrom_fst (0 + 1 + 1 + 1 + 1) 0 _ t ht])

/-- Normalization retags every merged triple in place with its position in
    the stable-sorted merged sequence. -/
theorem bucketIndexTriples_normalize (d : DataStoreTxEventData) :
    bucketIndexTriples (normalizeTxEvents d) =
      (bucketIndexTriples d).map (fun t => (t.1, t.2.1,
        (List.insertionSort eventIdxLe (bucketIndexTriples d)).findIdx
          (fun s => s.1 == t.1 && s.2.1 == t.2.1))) := by
  conv_lhs => rw [bucketIndexTriples, txEventIndexLists]
  simp only [normalizeTxEvents]
  exact bucketIndexTriples_renumber d (fun b p =>
    (List.insertionSort eventIdxLe (bucketIndexTriples d)).findIdx
      (fun s => s.1 == b && s.2.1 == p))

/-- In a list with pairwise distinct tags, looking up the tag of the entry at
    position k finds exactly position k. -/
theorem findIdx_tag_self {s : List (Nat × Nat × Nat)}
    (hnodup : (s.map tripleTag).Nodup) {k : Nat} (hk : k < s.length) :
    s.findIdx (fun t => t.1 == s[k].1 && t.2.1 == s[k].2.1) = k := by
  rw [List.findIdx_eq hk]
  constructor
  · simp
  · intro j hj
    by_contra hfalse
    have hjs : j < s.length := Nat.lt_trans hj hk
    rw [Bool.not_eq_false, Bool.and_eq_true, beq_iff_eq, beq_iff_eq] at hfalse
    have htag : tripleTag s[j] = tripleTag s[k] := by
      unfold tripleTag
      rw [hfalse.1, hfalse.2]
    have hjm : j < (s.map tripleTag).length := by simpa using hjs
    have hkm : k < (s.map tripleTag).length := by simpa using hk
    have hmap : (s.map tripleTag)[j] = (s.map tripleTag)[k] := by
      rw [List.getElem_map, List.getElem_map]
      exact htag
    have := (List.Nodup.getElem_inj_iff hnodup).mp hmap
    omega

/-- The event count after normalization is the merged bucket size. -/
theorem normalizeTxEvents_event_count (d : DataStoreTxEventData) :
    (normalizeTxEvents d).tx.event_count = (bucketIndexTriples d).length := by
  simp only [normalizeTxEvents]
  exact (List.perm_insertionSort eventIdxLe (bucketIndexTriples d)).length_eq

/-- Normalization keeps every event in place: the tags before and after agree
    position by position. -/
theorem normalizeTxEvents_tags (d : DataStoreTxEventData) :
    (bucketIndexTriples (normalizeTxEvents d)).map tripleTag =
      (bucketIndexTriples d).map tripleTag := by
  rw [bucketIndexTriples_normalize, List.map_map]
  rfl

/-- The new event indexes, in bucket order, are a permutation of the
    contiguous range from zero to the merged bucket size. -/
theorem normalizeTxEvents_indexes_perm (d : DataStoreTxEventData) :
    ((bucketIndexTriples (normalizeTxEvents d)).map (fun t => t.2.2)).Perm
      (List.range (bucketIndexTriples d).length) := by
  rw [bucketIndexTriples_normalize, List.map_map]
  have hperm : (List.insertionSort eventIdxLe (bucketIndexTriples d)).Perm
      (bucketIndexTriples d) := List.perm_insertionSort eventIdxLe (bucketIndexTriples d)
  have hnodups : ((List.insertionSort eventIdxLe (bucketIndexTriples d)).map
      tripleTag).Nodup := by
    rw [(hperm.map tripleTag).nodup_iff]
    exact tagBlocks_map_tag_nodup _ 0
  have hslen : (List.insertionSort eventIdxLe (bucketIndexTriples d)).length =
      (bucketIndexTriples d).length := hperm.length_eq
  have hsorted_map : (List.insertionSort eventIdxLe (bucketIndexTriples d)).map
      (fun t => (List.insertionSort eventIdxLe (bucketIndexTriples d)).findIdx
        (fun s => s.1 == t.1 && s.2.1 == t.2.1)) =
      List.range (bucketIndexTriples d).length := by
    refine List.ext_getElem (by simpa using hslen) ?_
    intro k hk1 hk2
    rw [List.getElem_map, List.getElem_range]
    exact findIdx_tag_self hnodups (by simpa using hk1)
  have hcomp3 : ((fun (t : Nat × Nat × Nat) => t.2.2) ∘ (fun (t : Nat × Nat × Nat) =>
      (t.1, t.2.1, (List.insertionSort eventIdxLe (bucketIndexTriples d)).findIdx
        (fun s => s.1 == t.1 && s.2.1 == t.2.1)))) = (fun (t : Nat × Nat × Nat) =>
      (List.insertionSort eventIdxLe (bucketIndexTriples d)).findIdx
        (fun s => s.1 == t.1 && s.2.1 == t.2.1)) := rfl
  rw [hcomp3, ← hsorted_map]
  exact (hperm.map _).symm

/-- getD at an in-range position is the element there. -/
theorem getD_triple_eq_getElem (l : List (Nat × Nat × Nat)) (k : Nat)
    (hk : k < l.length) : l.getD k (0, 0, 0) = l[k] := by
  rw [List.getD_eq_getElem?_getD, List.getElem?_eq_getElem hk]
  rfl

/-- Normalization is monotone in the original block-relative event indexes:
    an event with a strictly smaller original index receives a strictly
    smaller new index. -/
theorem normalizeTxEvents_order (d : DataStoreTxEventData) :
    ∀ i j, i < (bucketIndexTriples d).length → j < (bucketIndexTriples d).length →
      ((bucketIndexTriples d).getD i (0, 0, 0)).2.2 <
        ((bucketIndexTriples d).getD j (0, 0, 0)).2.2 →
      ((bucketIndexTriples (normalizeTxEvents d)).getD i (0, 0, 0)).2.2 <
        ((bucketIndexTriples (normalizeTxEvents d)).getD j (0, 0, 0)).2.2 := by
  intro i j hi hj hlt
  have hperm : (List.insertionSort eventIdxLe (bucketIndexTriples d)).Perm
      (bucketIndexTriples d) := List.perm_insertionSort eventIdxLe (bucketIndexTriples d)
  have hsorted : List.Sorted eventIdxLe
      (List.insertionSort eventIdxLe (bucketIndexTriples d)) :=
    List.sorted_insertionSort eventIdxLe (bucketIndexTriples d)
  have hnodups : ((List.insertionSort eventIdxLe (bucketIndexTriples d)).map
      tripleTag).Nodup := by
    rw [(hperm.map tripleTag).nodup_iff]
    exact tagBlocks_map_tag_nodup _ 0
  rw [getD_triple_eq_getElem _ i hi, getD_triple_eq_getElem _ j hj] at hlt
  rw [bucketIndexTriples_normalize]
  rw [getD_triple_eq_getElem _ i (by simpa using hi),
      getD_triple_eq_getElem _ j (by simpa using hj)]
  rw [List.getElem_map, List.getElem_map]
  show (List.insertionSort eventIdxLe (bucketIndexTriples d)).findIdx
      (fun s => s.1 == (bucketIndexTriples d)[i].1 &&
        s.2.1 == (bucketIndexTriples d)[i].2.1) <
    (List.insertionSort eventIdxLe (bucketIndexTriples d)).findIdx
      (fun s => s.1 == (bucketIndexTriples d)[j].1 &&
        s.2.1 == (bucketIndexTriples d)[j].2.1)
  have hmi : (bucketIndexTriples d)[i] ∈
      List.insertionSort eventIdxLe (bucketIndexTriples d) :=
    hperm.mem_iff.mpr (List.getElem_mem hi)
  have hmj : (bucketIndexTriples d)[j] ∈
      List.insertionSort eventIdxLe (bucketIndexTriples d) :=
    hperm.mem_iff.mpr (List.getElem_mem hj)
  obtain ⟨ki, hki, hski⟩ := List.getElem_of_mem hmi
  obtain ⟨kj, hkj, hskj⟩ := List.getElem_of_mem hmj
  rw [← hski, ← hskj]
  rw [findIdx_tag_self hnodups hki, findIdx_tag_self hnodups hkj]
  by_contra hnot
  rcases Nat.lt_or_ge kj ki with hlt2 | hge
  · have hrel := @List.Sorted.rel_get_of_lt _ eventIdxLe
      (List.insertionSort eventIdxLe (bucketIndexTriples d)) hsorted
      ⟨kj, hkj⟩ ⟨ki, hki⟩ hlt2
    have hle : (bucketIndexTriples d)[j].2.2 ≤ (bucketIndexTriples d)[i].2.2 := by
      rw [← hski, ← hskj]
      exact hrel
    omega
  · have hkeq : ki = kj := by omega
    subst hkeq
    rw [← hski, ← hskj] at hlt
    omega

/-- A freshly initialized bundle entry has no events. -/
theorem initTxEventData_totals (deps : ReaderDeps) (blockData : ParseBlockData)
    (chainId : ChainID) (tx : CoreNodeParsedTxMessage) :
    eventTotals (initTxEventData deps blockData chainId tx) = 0 := by
  unfold initTxEventData
  split
  · rfl
  · split <;> rfl
  · rfl

/-- With pairwise distinct transaction ids, pushing one event adds exactly
    one event to the unique owning entry and leaves all others unchanged. -/
theorem pushEventToTx_counts
    (mk : DataStoreTxEventData → Except String DataStoreTxEventData) (txid : String)
    (hmk : ∀ d d2, mk d = Except.ok d2 → d2.tx = d.tx ∧ eventTotals d2 = eventTotals d + 1) :
    ∀ (l out : List DataStoreTxEventData),
      pushEventToTx mk txid l = Except.ok out →
      (l.map (fun d => d.tx.tx_id)).Nodup →
      List.Forall₂ (fun d o => o.tx = d.tx ∧
        eventTotals o = eventTotals d + (if d.tx.tx_id = txid then 1 else 0)) l out := by
  intro l
  induction l with
  | nil => intro out h _; cases h
  | cons d rest ih =>
    intro out h hnod
    unfold pushEventToTx at h
    rw [List.map_cons, List.nodup_cons] at hnod
    obtain ⟨hdnotin, hnodrest⟩ := hnod
    by_cases hd : (d.tx.tx_id == txid) = true
    · rw [if_pos hd] at h
      cases hmkd : mk d with
      | error e => rw [hmkd, except_map_err] at h; cases h
      | ok d2 =>
        rw [hmkd, except_map_ok] at h
        injection h with heq; subst heq
        have hdeq : d.tx.tx_id = txid := by simpa using hd
        refine List.Forall₂.cons ⟨(hmk d d2 hmkd).1, ?_⟩ ?_
        · rw [if_pos hdeq]
          exact (hmk d d2 hmkd).2
        · rw [List.forall₂_same]
          intro x hx
          have hne : x.tx.tx_id ≠ txid := by
            intro hxe
            refine hdnotin ?_
            rw [hdeq, ← hxe]
            exact List.mem_map_of_mem (fun d => d.tx.tx_id) hx
          exact ⟨rfl, by rw [if_neg hne]; omega⟩
    · rw [if_neg hd] at h
      cases hrec : pushEventToTx mk txid rest with
      | error e => rw [hrec, except_map_err] at h; cases h
      | ok out2 =>
        rw [hrec, except_map_ok] at h
        injection h with heq; subst heq
        have hne : d.tx.tx_id ≠ txid := by simpa using hd
        exact List.Forall₂.cons ⟨rfl, by rw [if_neg hne]; omega⟩ (ih out2 hrec hnodrest)

/-- The whole scatter loop adds to each entry exactly the number of committed
    events owned by its transaction id, when the transaction ids are pairwise
    distinct. -/
theorem scatter_fold_counts (deps : ReaderDeps)
    (parsedTxs : List CoreNodeParsedTxMessage) (ctx : List CoreNodeEvent)
    (blockData : ParseBlockData) (chainId : ChainID) :
    ∀ (events : List CoreNodeEvent) (acc out : List DataStoreTxEventData),
      events.foldlM (applyEvent deps parsedTxs ctx blockData chainId) acc = Except.ok out →
      (acc.map (fun d => d.tx.tx_id)).Nodup →
      List.Forall₂ (fun d o => o.tx = d.tx ∧
        eventTotals o = eventTotals d +
          (events.filter (fun e => e.committed && e.txid == d.tx.tx_id)).length) acc out := by
  intro events
  induction events with
  | nil =>
    intro acc out h _
    injection h with heq; subst heq
    rw [List.forall₂_same]
    intro x _
    exact ⟨rfl, by simp⟩
  | cons e rest ih =>
    intro acc out h hnod
    rw [List.foldlM_cons] at h
    cases ha : applyEvent deps parsedTxs ctx blockData chainId acc e with
    | error er => rw [ha, except_bind_error] at h; cases h
    | ok mid =>
      rw [ha, except_bind_ok] at h
      have htxs : mid.map (fun d => d.tx) = acc.map (fun d => d.tx) :=
        applyEvent_txs deps parsedTxs ctx blockData chainId ha
      have hmidnod : (mid.map (fun d => d.tx.tx_id)).Nodup := by
        have h3 := congrArg (List.map (fun t : DbTx => t.tx_id)) htxs
        rw [List.map_map, List.map_map] at h3
        rw [show (fun d => d.tx.tx_id) =
          ((fun t : DbTx => t.tx_id) ∘ fun d : DataStoreTxEventData => d.tx) from rfl]
        rw [h3]
        exact hnod
      have hrest := ih mid out h hmidnod
      by_cases hc : e.committed = true
      · have hstep : List.Forall₂ (fun d o => o.tx = d.tx ∧
            eventTotals o = eventTotals d + (if d.tx.tx_id = e.txid then 1 else 0)) acc mid := by
          unfold applyEvent at ha
          rw [if_neg (by rw [hc]; simp)] at ha
          exact pushEventToTx_counts _ _
            (fun d d2 hmk => applyEventToTx_ok hmk) acc mid ha hnod
        rw [List.forall₂_iff_get] at hstep hrest ⊢
        obtain ⟨hlen1, hget1⟩ := hstep
        obtain ⟨hlen2, hget2⟩ := hrest
        refine ⟨hlen1.trans hlen2, ?_⟩
        intro k hk1 hk2
        obtain ⟨hgtx1, hgtot1⟩ := hget1 k hk1 (by omega)
        obtain ⟨hgtx2, hgtot2⟩ := hget2 k (by omega) hk2
        refine ⟨hgtx2.trans hgtx1, ?_⟩
        rw [hgtot2, hgtot1, hgtx1]
        rw [List.filter_cons]
        by_cases hmatch : e.txid = (acc.get ⟨k, hk1⟩).tx.tx_id
        · have hcond : (fun e2 : CoreNodeEvent =>
              e2.committed && e2.txid == (acc.get ⟨k, hk1⟩).tx.tx_id) e = true := by
            simp [hc, hmatch]
          rw [if_pos hcond, if_pos hmatch.symm]
          simp only [List.length_cons]
          omega
        · have hcond : ¬((fun e2 : CoreNodeEvent =>
              e2.committed && e2.txid == (acc.get ⟨k, hk1⟩).tx.tx_id) e = true) := by
            simp [hc]
            exact hmatch
          rw [if_neg hcond, if_neg (fun hx => hmatch hx.symm)]
          omega
      · have hacc : mid = acc := by
          unfold applyEvent at ha
          rw [if_pos (by simpa using hc)] at ha
          injection ha with heq
          exact heq.symm
        subst hacc
        rw [List.forall₂_iff_get] at hrest ⊢
        obtain ⟨hlen, hget⟩ := hrest
        refine ⟨hlen, ?_⟩
        intro k hk1 hk2
        obtain ⟨hgtx, hgtot⟩ := hget k hk1 hk2
        refine ⟨hgtx, ?_⟩
        rw [hgtot, List.filter_cons]
        rw [if_neg (by simp [hc])]

/-- C1: for every block or microblock message processed by
    parseDataStoreTxEventData whose transactions have pairwise distinct ids,
    the result is the scattered bundle with every transaction normalized, and
    for every transaction entry: its event_count equals N, the merged bucket
    size, which equals the number of committed events owned by the
    transaction; the merged buckets carry the new event indexes 0..N-1 (as a
    permutation, since the events stay in their buckets); every event stays
    at its bucket position; and the renumbering is strictly monotone in the
    original block-relative event indexes, preserving the original relative
    order. -/
theorem event_index_normalization (deps : ReaderDeps)
    (parsedTxs : List CoreNodeParsedTxMessage) (events : List CoreNodeEvent)
    (blockData : ParseBlockData) (chainId : ChainID)
    (scattered : List DataStoreTxEventData)
    (hscatter : scatterEvents deps parsedTxs events blockData chainId = Except.ok scattered)
    (hnodup : (parsedTxs.map (fun p => (deps.createDbTxFromCoreMsg p).tx_id)).Nodup) :
    parseDataStoreTxEventData deps parsedTxs events blockData chainId =
      Except.ok (scattered.map normalizeTxEvents) ∧
    ∀ u ∈ scattered,
      (normalizeTxEvents u).tx.event_count = (bucketIndexTriples u).length ∧
      (bucketIndexTriples u).length =
        (events.filter (fun e => e.committed && e.txid == u.tx.tx_id)).length ∧
      ((bucketIndexTriples (normalizeTxEvents u)).map (fun t => t.2.2)).Perm
        (List.range (bucketIndexTriples u).length) ∧
      ((bucketIndexTriples (normalizeTxEvents u)).map tripleTag =
        (bucketIndexTriples u).map tripleTag) ∧
      (∀ i j, i < (bucketIndexTriples u).length → j < (bucketIndexTriples u).length →
        ((bucketIndexTriples u).getD i (0, 0, 0)).2.2 <
          ((bucketIndexTriples u).getD j (0, 0, 0)).2.2 →
        ((bucketIndexTriples (normalizeTxEvents u)).getD i (0, 0, 0)).2.2 <
          ((bucketIndexTriples (normalizeTxEvents u)).getD j (0, 0, 0)).2.2) := by
  constructor
  · unfold parseDataStoreTxEventData
    rw [hscatter, except_map_ok]
  · intro u hu
    refine ⟨normalizeTxEvents_event_count u, ?_, normalizeTxEvents_indexes_perm u,
      normalizeTxEvents_tags u, normalizeTxEvents_order u⟩
    have hinitnod : ((parsedTxs.map (initTxEventData deps blockData chainId)).map
        (fun d => d.tx.tx_id)).Nodup := by
      rw [List.map_map]
      have hfun : ((fun d : DataStoreTxEventData => d.tx.tx_id) ∘
          initTxEventData deps blockData chainId) =
          fun p => (deps.createDbTxFromCoreMsg p).tx_id := by
        funext p
        show (initTxEventData deps blockData chainId p).tx.tx_id = _
        rw [initTxEventData_tx]
      rw [hfun]
      exact hnodup
    have hcounts := scatter_fold_counts deps parsedTxs events blockData chainId events
      (parsedTxs.map (initTxEventData deps blockData chainId)) scattered hscatter hinitnod
    obtain ⟨k, hk, huk⟩ := List.getElem_of_mem hu
    rw [List.forall₂_iff_get] at hcounts
    obtain ⟨hlen, hget⟩ := hcounts
    have hk1 : k < (parsedTxs.map (initTxEventData deps blockData chainId)).length := by
      omega
    obtain ⟨hgtx, hgtot⟩ := hget k hk1 hk
    have hsget : scattered.get ⟨k, hk⟩ = u := by
      rw [List.get_eq_getElem]
      exact huk
    rw [hsget] at hgtx hgtot
    rw [bucketIndexTriples_length]
    rw [hgtot, hgtx]
    have hk2 : k < parsedTxs.length := by simpa using hk1
    have hinitk : (parsedTxs.map (initTxEventData deps blockData chainId)).get ⟨k, hk1⟩ =
        initTxEventData deps blockData chainId (parsedTxs.get ⟨k, hk2⟩) := by
      rw [List.get_eq_getElem, List.get_eq_getElem, List.getElem_map]
    rw [hinitk, initTxEventData_totals]
    omega

/-- Two committed events of one transaction, with out-of-order block-relative
    indexes, for the C1 witness. -/
def w1Events : List CoreNodeEvent :=
  [{ txid := "0x01", committed := true, event_index := 5,
     payload := CoreNodeEventPayload.stxTransferEvent "SP1" "SP2" 100 },
   { txid := "0x01", committed := true, event_index := 2,
     payload := CoreNodeEventPayload.ftMintEvent "tok" "SP2" 7 }]

/-- The scattered bundle of the C1 witness before normalization. -/
def w1Scattered : List DataStoreTxEventData :=
  [{ tx := { tx_id := "0x01", tx_index := 0, event_count := 0 }
     stxEvents := [{ toDbEventBase :=
                       { event_index := 5, tx_id := "0x01", tx_index := 0,
                         block_height := 2, canonical := true }
                     event_type := DbEventTypeId.StxAsset
                     asset_event_type_id := DbAssetEventTypeId.Transfer
                     sender := some "SP1"
                     recipient := some "SP2"
                     amount := 100 }]
     stxLockEvents := []
     ftEvents := [{ toDbEventBase :=
                      { event_index := 2, tx_id := "0x01", tx_index := 0,
                        block_height := 2, canonical := true }
                    event_type := DbEventTypeId.FungibleTokenAsset
                    asset_event_type_id := DbAssetEventTypeId.Mint
                    sender := none
                    recipient := some "SP2"
                    asset_identifier := "tok"
                    amount := 7 }]
     nftEvents := []
     contractLogEvents := []
     smartContracts := []
     names := []
     namespaces := [] }]

/-- Witness for C1: on a concrete message with one transaction and two
    out-of-order committed events, the parse normalizes as stated. -/
theorem event_index_normalization_witness :
    parseDataStoreTxEventData witnessReaderDeps [witnessParsedTx] w1Events
      { block_height := 2, index_block_hash := "0xi1" } 1 =
      Except.ok (w1Scattered.map normalizeTxEvents) ∧
    ∀ u ∈ w1Scattered,
      (normalizeTxEvents u).tx.event_count = (bucketIndexTriples u).length ∧
      (bucketIndexTriples u).length =
        (w1Events.filter (fun e => e.committed && e.txid == u.tx.tx_id)).length ∧
      ((bucketIndexTriples (normalizeTxEvents u)).map (fun t => t.2.2)).Perm
        (List.range (bucketIndexTriples u).length) ∧
      ((bucketIndexTriples (normalizeTxEvents u)).map tripleTag =
        (bucketIndexTriples u).map tripleTag) ∧
      (∀ i j, i < (bucketIndexTriples u).length → j < (bucketIndexTriples u).length →
        ((bucketIndexTriples u).getD i (0, 0, 0)).2.2 <
          ((bucketIndexTriples u).getD j (0, 0, 0)).2.2 →
        ((bucketIndexTriples (normalizeTxEvents u)).getD i (0, 0, 0)).2.2 <
          ((bucketIndexTriples (normalizeTxEvents u)).getD j (0, 0, 0)).2.2) :=
  event_index_normalization witnessReaderDeps [witnessParsedTx] w1Events
    { block_height := 2, index_block_hash := "0xi1" } 1 w1Scattered
    (by decide) (by decide)
